import Mathlib

/-!
# A shallow embedding of the `easydi` dependency-injection engine

This file models `src/easydi/__init__.py` in Lean 4 and proves/refutes the
frozen claims about it.

Modelling conventions:
* Python object identity is modelled by allocation ids (`Nat`): every
  constructor call that completes allocates a fresh id, recorded in
  `World.objCls` (object id `o` has class `World.objCls[o]`; the next fresh
  id is `World.objCls.length`).
* Python classes are modelled by `ClassSpec`: the class's dotted path
  (`__module__` segments plus `__qualname__`, as computed by
  `_retrieve_class_path`), the external constructor's failure behaviour
  (`ctorRaises` — constructors are arbitrary user code), and, for config
  objects, whether instances carry a callable `get` and what it returns.
* `ObjectFactoryMap` is an insertion-ordered string-keyed dict; we model it
  as an association list `List (String × Node)`.  The reader/writer lock
  only serialises accesses and is invisible to the sequential semantics.
* Python exceptions are `Except String` values carrying the message text
  (for messages built with `"...".format(obj)` we substitute the class's
  dotted path for the `repr`); raising does not roll back state, so every
  operation returns its (possibly mutated) `World` alongside the result.
* Mutable state (factory singleton caches, factory back-references to a
  container map, per-container registry maps) lives in a `World`; factories
  and containers are referenced by index into `World.facts` / `World.conts`,
  mirroring Python reference semantics.
* Recursion between descriptors and factories is unbounded in Python
  (Python's recursion limit raises `RecursionError`); we model it with an
  explicit fuel parameter, exhaustion being that error.
-/

/-- Payloads of plain (non-instance) Python values flowing through the
engine.  `bool`/`int`/`float` literals and the container literals accepted
by `Dependency` are abstracted to these tags. -/
inductive Prim where
  | str (s : String)
  | int (n : Int)
  | bool (b : Bool)
  deriving Repr

/-- A Python value as seen by the resolution engine: an instance (by
identity), a plain literal, a list of values (what `DependencyGroup`
returns), or `None`. -/
inductive PyVal where
  | obj (id : Nat)
  | prim (p : Prim)
  | vlist (vs : List PyVal)
  | pynone
  deriving Repr

/-- A node of the namespaced registry (`ObjectFactoryMap` tree): a nested
map, a leaf `ObjectFactory` (by id into `World.facts`), a Python list of
factories (the `_group` entries), or Python `None` (the empty `_config`
slot). -/
inductive Node where
  | map (es : List (String × Node))
  | fact (fid : Nat)
  | lst (fids : List Nat)
  | nil
  deriving Repr

namespace Node

/-- `dict` lookup on an `ObjectFactoryMap` (first binding wins; maps built
by the engine have unique keys, like Python dicts). -/
def mapGet : List (String × Node) → String → Option Node
  | [], _ => none
  | (k, v) :: es, key => if k = key then some v else mapGet es key

/-- `dict` assignment on an `ObjectFactoryMap`: replaces the existing
binding in place, else appends (Python dicts keep insertion order). -/
def mapSet : List (String × Node) → String → Node → List (String × Node)
  | [], key, val => [(key, val)]
  | (k, v) :: es, key, val =>
      if k = key then (k, val) :: es else (k, v) :: mapSet es key val

end Node

/-- A Python class as the engine sees it: its dotted path (what
`_retrieve_class_path` returns, i.e. `__module__.split(".")` plus
`__qualname__`), the external constructor's failure behaviour, and — for
classes used as config objects — whether instances expose a callable `get`
and what it returns (`get(config_path, placeholder=…, value_format=…)`). -/
structure ClassSpec where
  path : List String
  ctorRaises : List PyVal → List (String × PyVal) → Bool
  hasGet : Bool
  getFn : String → PyVal → String → PyVal

/-- A default used for out-of-range class ids (never hit by well-formed
worlds; its instances have no `get`). -/
def defaultClass : ClassSpec :=
  { path := ["<missing>"], ctorRaises := fun _ _ => false,
    hasGet := false, getFn := fun _ _ _ => .pynone }

instance : Inhabited ClassSpec := ⟨defaultClass⟩

/-- The abstracted behaviour of a `DependencyCallback`'s external callback
function: it may raise, return a plain value, or return a class. -/
inductive CbResult where
  | raises
  | value (v : PyVal)
  | retClass (c : Nat)
  deriving Repr

/-- What `Dependency.__class` may hold: a class, a literal passing the
`isinstance(..., (list, dict, tuple, int, float))` check, a dependency
descriptor object (what `Container.register` wraps when an argument slips
past its isinstance test), or any other object (e.g. a string). -/
inductive DepTarget where
  | cls (c : Nat)
  | lit (p : Prim)
  | descObj
  | other
  deriving Repr

/-- The five dependency-descriptor variants.  Each carries the extra
positional/keyword arguments stored at descriptor creation.  `single` is
`_single_instance`; `DependencyConfig`'s `value_format` is an opaque tag
for the external coercion function, forwarded verbatim. -/
inductive Descriptor where
  | direct (target : DepTarget) (single : Bool)
      (args : List PyVal) (kwargs : List (String × PyVal))
  | path (p : String) (single : Bool)
      (args : List PyVal) (kwargs : List (String × PyVal))
  | config (configPath : String) (placeholder : PyVal) (valueFormat : String)
  | group (name : String) (single : Bool)
      (args : List PyVal) (kwargs : List (String × PyVal))
  | callback (cb : CbResult) (single : Bool)
      (args : List PyVal) (kwargs : List (String × PyVal))
  deriving Repr

/-- An `ObjectFactory`: the wrapped class, the back-reference to a
container's registry map (`self.__containers`, here the index of the
owning container in `World.conts`), the declared dependency descriptors,
and the singleton cache (`self.__instance`). -/
structure Factory where
  classObject : Nat
  containers : Nat
  depArgs : List Descriptor
  depKwargs : List (String × Descriptor)
  cache : Option Nat

def defaultFactory : Factory :=
  { classObject := 0, containers := 0, depArgs := [], depKwargs := [],
    cache := none }

instance : Inhabited Factory := ⟨defaultFactory⟩

/-- Global mutable state: the class table (immutable), the factory heap,
the per-container registry maps, and the allocation record (`objCls[o]` is
the class of instance `o`; fresh ids are `objCls.length`). -/
structure World where
  classes : List ClassSpec
  facts : List Factory
  conts : List (List (String × Node))
  objCls : List Nat

namespace World

def getClass (w : World) (c : Nat) : ClassSpec := w.classes.getD c defaultClass

def getFact (w : World) (fid : Nat) : Factory := w.facts.getD fid defaultFactory

def getCont (w : World) (cid : Nat) : List (String × Node) := w.conts.getD cid []

/-- Overwrite `self.__instance` of factory `fid`. -/
def setCache (w : World) (fid : Nat) (o : Nat) : World :=
  { w with facts := w.facts.set fid { w.getFact fid with cache := some o } }

/-- `ObjectFactory.update_containers`: rebind a factory's back-reference. -/
def setFactContainers (w : World) (fid : Nat) (cid : Nat) : World :=
  { w with facts := w.facts.set fid { w.getFact fid with containers := cid } }

/-- Replace container `cid`'s registry map. -/
def setCont (w : World) (cid : Nat) (m : List (String × Node)) : World :=
  { w with conts := w.conts.set cid m }

/-- Allocate a fresh instance of class `c`: the new object id is the
current `objCls.length`. -/
def allocObj (w : World) (c : Nat) : Nat × World :=
  (w.objCls.length, { w with objCls := w.objCls ++ [c] })

end World

/-- Python `str.split(".")` (thus `"a.b"` gives `["a", "b"]` and `""` gives
`[""]`), written out over the character list so that it computes by
kernel reduction. -/
def splitSegsAux : List Char → List Char → List String
  | [], acc => [String.mk acc.reverse]
  | c :: cs, acc =>
      if c = '.' then String.mk acc.reverse :: splitSegsAux cs []
      else splitSegsAux cs (c :: acc)

def splitSegs (s : String) : List String := splitSegsAux s.toList []

/-- The dotted-path walk shared by `Dependency.build`, `DependencyPath.build`
and `DependencyCallback.build`:

    obj = None
    for path in class_path:
        if isinstance(obj, ObjectFactoryMap): obj = getattr(obj, path)
        else:                                 obj = getattr(containers, path)

`getattr` on an `ObjectFactoryMap` is `self.get(path)`, returning `None`
both for a missing key and for a stored `None`. -/
def walkPath (conts : List (String × Node)) (segs : List String) : Node :=
  segs.foldl
    (fun obj seg =>
      match obj with
      | .map es => (Node.mapGet es seg).getD .nil
      | _ => (Node.mapGet conts seg).getD .nil)
    Node.nil

/-- Error messages raised by the engine (format placeholders replaced by
the class's dotted path). -/
def notRegisterMsg (segs : List String) : String :=
  "Object " ++ String.intercalate "." segs ++ " is not register in containers"

def unableMsg (segs : List String) : String :=
  "Unable to create " ++ String.intercalate "." segs ++ " instance."

def configNotSetMsg : String :=
  "Object for config not set, please register object with _config=True"

def configGetMsg : String :=
  "Config must implement : def get(config_path, placeholder, value_format)"

def unsupportedMsg : String := "Unsupported object type"

def recursionMsg : String := "RecursionError: maximum recursion depth exceeded"

/-- The unregistered-class escape hatch: `self.__class(*args, **kwargs)` on
a class that resolved to `None` in the registry — invoke the external
constructor directly; a fresh object on success, its exception otherwise. -/
def constructFresh (c : Nat) (args : List PyVal) (kwargs : List (String × PyVal))
    (w : World) : Except String Nat × World :=
  if (w.getClass c).ctorRaises args kwargs then
    (.error ("constructor of " ++ String.intercalate "." (w.getClass c).path ++ " raised"), w)
  else
    let (o, w') := w.allocObj c
    (.ok o, w')

/-- `dict` assignment for generic string-keyed dicts (same semantics as
`Node.mapSet`). -/
def assocSet {α : Type} : List (String × α) → String → α → List (String × α)
  | [], key, val => [(key, val)]
  | (k, v) :: es, key, val =>
      if k = key then (k, val) :: es else (k, v) :: assocSet es key val

/-- Python `dict.update`: bindings of the second dict override the first,
new keys appended in order. -/
def mergeKw (d1 d2 : List (String × PyVal)) : List (String × PyVal) :=
  d2.foldl (fun acc kv => assocSet acc kv.1 kv.2) d1

mutual

/-- `build(containers)` of a dependency descriptor, per variant:

* `Dependency.build` (lines 139–166): walk the class path; `None` means
  unregistered → call the class directly (the escape hatch); otherwise
  dispatch to the found object's `build`/`instance`; everything inside the
  `try` is re-raised as `"Object … is not register in containers"`; a
  non-class non-literal target raises `"Unsupported object type"`.
* `DependencyPath.build` (lines 176–200): same walk from the explicit
  dotted string; in the `obj is None` branch the code evaluates
  `self.__class`, an attribute `DependencyPath` never defines, so the
  `AttributeError` is caught and re-raised as the not-register error.
* `DependencyConfig.build` (lines 221–231): `containers["_config"].instance()`
  with any failure (missing key, `None` slot, failing factory) re-raised as
  the config-not-set error; then the callable-`get` check; then
  `get(path, placeholder=…, value_format=…)` returned verbatim.
* `DependencyGroup.build` (lines 293–310): a `KeyError` on
  `containers["_group"]` propagates (no try); a group name missing from the
  index returns `[]`; a list entry is resolved member-by-member with
  per-member exceptions logged and skipped.  (A dict where the list is
  expected iterates over its string keys, all of which fail and are
  skipped; a non-iterable entry raises.)
* `DependencyCallback.build` (lines 253–277): the callback's result is
  returned as-is unless it is a class, which is then treated like
  `Dependency`; any error is re-raised as `"Unsupported object type"`. -/
def buildDesc : Nat → Descriptor → Nat → World → Except String PyVal × World
  | 0, _, _, w => (.error recursionMsg, w)
  | fuel + 1, d, cid, w =>
    match d with
    | .direct target single args kwargs =>
      match target with
      | .cls c =>
          match walkPath (w.getCont cid) (w.getClass c).path with
          | .nil =>
              match constructFresh c args kwargs w with
              | (.ok o, w') => (.ok (.obj o), w')
              | (.error _, w') => (.error (notRegisterMsg (w.getClass c).path), w')
          | obj =>
              match dispatchNode fuel obj single args kwargs w with
              | (.ok v, w') => (.ok v, w')
              | (.error _, w') => (.error (notRegisterMsg (w.getClass c).path), w')
      | .lit p => (.ok (.prim p), w)
      | .descObj => (.error unsupportedMsg, w)
      | .other => (.error unsupportedMsg, w)
    | .path p single args kwargs =>
      match walkPath (w.getCont cid) (splitSegs p) with
      | .nil => (.error (notRegisterMsg (splitSegs p)), w)
      | obj =>
          match dispatchNode fuel obj single args kwargs w with
          | (.ok v, w') => (.ok v, w')
          | (.error _, w') => (.error (notRegisterMsg (splitSegs p)), w')
    | .config cpath placeholder fmt =>
      match Node.mapGet (w.getCont cid) "_config" with
      | some (.fact f) =>
          match factoryInstance fuel f [] [] w with
          | (.ok o, w') =>
              if (w'.getClass (w'.objCls.getD o 0)).hasGet then
                (.ok ((w'.getClass (w'.objCls.getD o 0)).getFn cpath placeholder fmt), w')
              else (.error configGetMsg, w')
          | (.error _, w') => (.error configNotSetMsg, w')
      | _ => (.error configNotSetMsg, w)
    | .group gname single args kwargs =>
      match Node.mapGet (w.getCont cid) "_group" with
      | none => (.error "KeyError: _group", w)
      | some (.map ges) =>
          match Node.mapGet ges gname with
          | none => (.ok (.vlist []), w)
          | some (.lst fids) =>
              (.ok (.vlist (resolveGroupMembers fuel fids single args kwargs w).1),
               (resolveGroupMembers fuel fids single args kwargs w).2)
          | some (.map _) => (.ok (.vlist []), w)
          | some (.fact _) => (.error "TypeError: ObjectFactory is not iterable", w)
          | some .nil => (.error "TypeError: NoneType is not iterable", w)
      | some (.lst _) => (.ok (.vlist []), w)
      | some (.fact _) => (.error "TypeError: membership test failed", w)
      | some .nil => (.error "TypeError: membership test failed", w)
    | .callback cb single args kwargs =>
      match cb with
      | .raises => (.error unsupportedMsg, w)
      | .value v => (.ok v, w)
      | .retClass c =>
          match walkPath (w.getCont cid) (w.getClass c).path with
          | .nil =>
              match constructFresh c args kwargs w with
              | (.ok o, w') => (.ok (.obj o), w')
              | (.error _, w') => (.error unsupportedMsg, w')
          | obj =>
              match dispatchNode fuel obj single args kwargs w with
              | (.ok v, w') => (.ok v, w')
              | (.error _, w') => (.error unsupportedMsg, w')

  termination_by structural fuel _ _ _ => fuel

/-- Dispatch on the node a walk found: an `ObjectFactory` answers
`build`/`instance` per the `_single_instance` flag; a nested map answers
`getattr(...)` with `None` (calling it raises `TypeError`); lists and
`None` lack the attribute entirely. -/
def dispatchNode : Nat → Node → Bool → List PyVal → List (String × PyVal) →
    World → Except String PyVal × World
  | 0, _, _, _, _, w => (.error recursionMsg, w)
  | fuel + 1, obj, single, args, kwargs, w =>
    match obj with
    | .fact f =>
        if single then
          match factoryInstance fuel f args kwargs w with
          | (.ok o, w') => (.ok (.obj o), w')
          | (.error e, w') => (.error e, w')
        else
          match createInstance fuel f args kwargs w with
          | (.ok o, w') => (.ok (.obj o), w')
          | (.error e, w') => (.error e, w')
    | .map _ => (.error "TypeError: NoneType object is not callable", w)
    | .lst _ => (.error "AttributeError: list object has no attribute", w)
    | .nil => (.error "AttributeError: NoneType object has no attribute", w)

  termination_by structural fuel _ _ _ _ _ => fuel

/-- `ObjectFactory.instance` (lines 108–112): return the cached singleton,
creating and caching it on first call; the write after creation is
unconditional (`self.__instance = instance`). -/
def factoryInstance : Nat → Nat → List PyVal → List (String × PyVal) →
    World → Except String Nat × World
  | 0, _, _, _, w => (.error recursionMsg, w)
  | fuel + 1, fid, args, kwargs, w =>
    match (w.getFact fid).cache with
    | some o => (.ok o, w)
    | none =>
        match createInstance fuel fid args kwargs w with
        | (.ok o, w') => (.ok o, w'.setCache fid o)
        | (.error e, w') => (.error e, w')

  termination_by structural fuel _ _ _ _ => fuel

/-- `ObjectFactory.__create_instance` (lines 92–106), also the body of
`ObjectFactory.build`: resolve the declared dependency descriptors — note
this happens OUTSIDE the `try`, so descriptor errors propagate unchanged —
then invoke the wrapped class's constructor with
resolved-positionals ++ extras and resolved-keywords updated by extras;
only the constructor call is wrapped into `"Unable to create … instance."`. -/
def createInstance : Nat → Nat → List PyVal → List (String × PyVal) →
    World → Except String Nat × World
  | 0, _, _, _, w => (.error recursionMsg, w)
  | fuel + 1, fid, args, kwargs, w =>
    match resolveArgs fuel (w.getFact fid).depArgs (w.getFact fid).containers w with
    | (.error e, w') => (.error e, w')
    | (.ok vals, w') =>
      match resolveKwargs fuel (w.getFact fid).depKwargs (w.getFact fid).containers w' with
      | (.error e, w'') => (.error e, w'')
      | (.ok kvals, w'') =>
        if (w''.getClass (w.getFact fid).classObject).ctorRaises
            (vals ++ args) (mergeKw kvals kwargs) then
          (.error (unableMsg (w''.getClass (w.getFact fid).classObject).path), w'')
        else
          (.ok (w''.allocObj (w.getFact fid).classObject).1,
           (w''.allocObj (w.getFact fid).classObject).2)

  termination_by structural fuel _ _ _ _ => fuel

/-- The positional-descriptor list comprehension of `__create_instance`:
`[arg.build(self.__containers) for arg in self.__dependency_args]`. -/
def resolveArgs : Nat → List Descriptor → Nat → World →
    Except String (List PyVal) × World
  | 0, _, _, w => (.error recursionMsg, w)
  | fuel + 1, ds, cid, w =>
    match ds with
    | [] => (.ok [], w)
    | d :: rest =>
        match buildDesc fuel d cid w with
        | (.error e, w') => (.error e, w')
        | (.ok v, w') =>
            match resolveArgs fuel rest cid w' with
            | (.error e, w'') => (.error e, w'')
            | (.ok vs, w'') => (.ok (v :: vs), w'')

  termination_by structural fuel _ _ _ => fuel

/-- The keyword-descriptor comprehension of `__create_instance`. -/
def resolveKwargs : Nat → List (String × Descriptor) → Nat → World →
    Except String (List (String × PyVal)) × World
  | 0, _, _, w => (.error recursionMsg, w)
  | fuel + 1, ds, cid, w =>
    match ds with
    | [] => (.ok [], w)
    | (k, d) :: rest =>
        match buildDesc fuel d cid w with
        | (.error e, w') => (.error e, w')
        | (.ok v, w') =>
            match resolveKwargs fuel rest cid w' with
            | (.error e, w'') => (.error e, w'')
            | (.ok vs, w'') => (.ok ((k, v) :: vs), w'')

  termination_by structural fuel _ _ _ => fuel

/-- The member loop of `DependencyGroup.build`: resolve each factory via
`build`/`instance` per the flag; a member that raises is logged and
skipped, so the loop itself never raises (fuel exhaustion makes every
member raise, hence skip). -/
def resolveGroupMembers : Nat → List Nat → Bool → List PyVal →
    List (String × PyVal) → World → List PyVal × World
  | 0, _, _, _, _, w => ([], w)
  | fuel + 1, fids, single, args, kwargs, w =>
    match fids with
    | [] => ([], w)
    | f :: rest =>
        match (if single then factoryInstance fuel f args kwargs w
               else createInstance fuel f args kwargs w) with
        | (.ok o, w') =>
            let r := resolveGroupMembers fuel rest single args kwargs w'
            (.obj o :: r.1, r.2)
        | (.error _, w') => resolveGroupMembers fuel rest single args kwargs w'
  termination_by structural fuel _ _ _ _ _ => fuel

end

/-- `ObjectFactory.build` (lines 114–115): always a fresh
`__create_instance`; the cache is neither read nor written here. -/
def factoryBuild (fuel : Nat) (fid : Nat) (args : List PyVal)
    (kwargs : List (String × PyVal)) (w : World) : Except String Nat × World :=
  createInstance fuel fid args kwargs w

/-- `dict.get(key)` on an `ObjectFactoryMap`, as an `Except` to record that
this Python call returns (it yields the stored value, or `None` for a
missing key) and cannot raise for string keys. -/
def dictGet (m : List (String × Node)) (key : String) : Except String Node :=
  .ok ((Node.mapGet m key).getD .nil)

/-- `Container.__getattr__` (lines 321–329):

    try: return self.__container.get(key)
    except:
        try: return self.__container._alias.get(key)
        except: pass
        raise Exception("Dependency {} is not register".format(key))

The handler structure is transcribed as written; whether it is reachable
is a theorem, not part of the definition. -/
def containerGetattr (m : List (String × Node)) (key : String) : Except String Node :=
  match dictGet m key with
  | .ok v => .ok v
  | .error _ =>
      match Node.mapGet m "_alias" with
      | some (.map aes) =>
          match dictGet aes key with
          | .ok v => .ok v
          | .error _ => .error ("Dependency " ++ key ++ " is not register")
      | _ => .error ("Dependency " ++ key ++ " is not register")

/-- `Container.__init__`: `{"_group": OFM(), "_alias": OFM(), "_config": None}`. -/
def initialContainerMap : List (String × Node) :=
  [("_group", .map []), ("_alias", .map []), ("_config", .nil)]

/-- Fresh `Container()`: a new registry map in the world. -/
def newContainer (w : World) : Nat × World :=
  (w.conts.length, { w with conts := w.conts ++ [initialContainerMap] })

/-- An argument passed to `Container.register`: either already a
dependency-descriptor instance, or any other object (a class, a literal,
…) that the method wraps. -/
inductive RegArg where
  | desc (d : Descriptor)
  | raw (t : DepTarget)
  deriving Repr

/-- A keyword-argument value passed to `Container.register`.  The reserved
keys `_group`/`_alias` carry strings and `_config` a bool, per the API
documentation; other keys carry dependency arguments. -/
inductive RegKwVal where
  | arg (a : RegArg)
  | name (s : String)
  | flag (b : Bool)
  deriving Repr

/-- Positional wrapping in `register` (lines 375–376): anything that is not
an instance of one of the five descriptor classes becomes
`Dependency(arg)`. -/
def wrapPos : RegArg → Descriptor
  | .desc d => d
  | .raw t => .direct t true [] []

/-- Keyword wrapping in `register` (lines 382–383).  The isinstance tuple
there is `(Dependency, DependencyPath, DependencyGroup, DependencyConfig)`
— it omits `DependencyCallback`, so a callback descriptor passed by
keyword is wrapped into `Dependency(<the descriptor object>)`, whose later
`build` hits the unsupported-object branch. A plain string wraps into a
`Dependency` of an unsupported target; a plain bool is an `int` in Python
and wraps into a literal `Dependency`. -/
def wrapKwVal : RegKwVal → Descriptor
  | .arg (.desc (.callback _ _ _ _)) => .direct .descObj true [] []
  | .arg (.desc d) => d
  | .arg (.raw t) => .direct t true [] []
  | .name _ => .direct .other true [] []
  | .flag b => .direct (.lit (.bool b)) true [] []

/-- `kwargs.pop(key, default)`: the bound value (if any) and the remaining
dict. -/
def popKw (m : List (String × RegKwVal)) (key : String) :
    Option RegKwVal × List (String × RegKwVal) :=
  (m.lookup key, m.filter (fun kv => !(kv.1 == key)))

/-- The reserved `_group`/`_alias` values (strings; `None` when absent). -/
def asName : Option RegKwVal → Option String
  | some (.name s) => some s
  | _ => none

/-- The reserved `_config` value (`False` when absent). -/
def asFlag : Option RegKwVal → Bool
  | some (.flag b) => b
  | _ => false

/-- The path-storing loop at the end of `register` (lines 390–399): create
intermediate `ObjectFactoryMap`s for missing segments, store the factory at
the last segment.  An existing non-map intermediate makes the Python loop
raise a `TypeError` (item assignment / membership test on a non-dict). -/
def setPath : List (String × Node) → List String → Nat →
    Except String (List (String × Node))
  | es, [], _ => .ok es
  | es, [p], fid => .ok (Node.mapSet es p (.fact fid))
  | es, p :: q :: rest, fid =>
      match Node.mapGet es p with
      | some (.map inner) =>
          match setPath inner (q :: rest) fid with
          | .error e => .error e
          | .ok inner' => .ok (Node.mapSet es p (.map inner'))
      | none =>
          match setPath [] (q :: rest) fid with
          | .error e => .error e
          | .ok inner' => .ok (Node.mapSet es p (.map inner'))
      | some _ => .error "TypeError: path segment is not a map"

/-- `Container.__group_factory` (lines 411–418): create the group's list on
first use, then append the factory.  (On a malformed `_group` index the
Python attribute/membership operations raise.) -/
def addGroup (m : List (String × Node)) (group : Option String) (fid : Nat) :
    Except String (List (String × Node)) :=
  match group with
  | none => .ok m
  | some gname =>
      match Node.mapGet m "_group" with
      | some (.map ges) =>
          match Node.mapGet ges gname with
          | none => .ok (Node.mapSet m "_group" (.map (Node.mapSet ges gname (.lst [fid]))))
          | some (.lst fids) =>
              .ok (Node.mapSet m "_group" (.map (Node.mapSet ges gname (.lst (fids ++ [fid])))))
          | some _ => .error "AttributeError: append"
      | _ => .error "TypeError: _group index is not a map"

/-- `Container.__add_alias` (lines 405–409). -/
def addAlias (m : List (String × Node)) (aliasName : Option String) (fid : Nat) :
    Except String (List (String × Node)) :=
  match aliasName with
  | none => .ok m
  | some aname =>
      match Node.mapGet m "_alias" with
      | some (.map aes) =>
          .ok (Node.mapSet m "_alias" (.map (Node.mapSet aes aname (.fact fid))))
      | _ => .error "TypeError: _alias index is not a map"

/-- `Container.__set_config` (lines 401–403): rebind the `_config` slot when
the flag is truthy. -/
def addConfig (m : List (String × Node)) (flag : Bool) (fid : Nat) :
    List (String × Node) :=
  if flag then Node.mapSet m "_config" (.fact fid) else m

/-- `Container.register` (lines 373–399): wrap positional arguments, pop the
three reserved keywords, wrap the remaining keyword arguments, build the
`ObjectFactory` (back-referencing this container's map), feed the group /
alias / config side-indexes, and store the factory at its namespaced
path. -/
def register (w : World) (cid : Nat) (classObject : Nat) (args : List RegArg)
    (kwargs : List (String × RegKwVal)) : Except String World :=
  let depArgs := args.map wrapPos
  let popG := popKw kwargs "_group"
  let popA := popKw popG.2 "_alias"
  let popC := popKw popA.2 "_config"
  let depKwargs := popC.2.map (fun kv => (kv.1, wrapKwVal kv.2))
  let fid := w.facts.length
  let w1 : World :=
    { w with facts := w.facts ++
        [{ classObject := classObject, containers := cid,
           depArgs := depArgs, depKwargs := depKwargs, cache := none }] }
  match addGroup (w1.getCont cid) (asName popG.1) fid with
  | .error e => .error e
  | .ok m1 =>
      match addAlias m1 (asName popA.1) fid with
      | .error e => .error e
      | .ok m2 =>
          let m3 := addConfig m2 (asFlag popC.1) fid
          match setPath m3 (w1.getClass classObject).path fid with
          | .error e => .error e
          | .ok m4 => .ok (w1.setCont cid m4)

/-- The `isinstance(dict1[key], ObjectFactory)` branch of
`_update_containers`: `if val is not None: dict1[key] = val`. -/
def mergeFactArm (d1 : List (String × Node)) (k : String) :
    Node → Except String (List (String × Node))
  | .nil => .ok d1
  | .map m2 => .ok (Node.mapSet d1 k (.map m2))
  | .fact f => .ok (Node.mapSet d1 k (.fact f))
  | .lst l2 => .ok (Node.mapSet d1 k (.lst l2))

/-- The `isinstance(dict1[key], list)` branch: lists concatenate; any
other value reaches `dict1[key].update(val)`, an `AttributeError` on a
Python list. -/
def mergeListArm (d1 : List (String × Node)) (k : String) (l1 : List Nat) :
    Node → Except String (List (String × Node))
  | .lst l2 => .ok (Node.mapSet d1 k (.lst (l1 ++ l2)))
  | .map _ => .error "AttributeError: list object has no attribute update"
  | .fact _ => .error "AttributeError: list object has no attribute update"
  | .nil => .error "AttributeError: list object has no attribute update"

mutual

/-- `Container._update_containers` (lines 340–353), the recursive
structural merge of one registry map into another, entry by entry. -/
def mergeInto (d1 : List (String × Node)) :
    List (String × Node) → Except String (List (String × Node))
  | [] => .ok d1
  | (k, v) :: rest =>
      match mergeOne d1 k v with
      | .error e => .error e
      | .ok d1' => mergeInto d1' rest

/-- One entry of the merge loop:

* key absent → `dict1[key] = val`;
* existing map → recursive merge (the recursive call iterates
  `val.items()`, raising when `val` is not a dict);
* existing `ObjectFactory` → replaced by `val` unless `val is None`;
* existing list and `val` list → concatenation;
* anything else → `dict1[key].update(val)`, which raises on `None`
  (the fresh `_config` slot). -/
def mergeOne (d1 : List (String × Node)) (k : String) (v : Node) :
    Except String (List (String × Node)) :=
  match Node.mapGet d1 k with
  | none => .ok (Node.mapSet d1 k v)
  | some (.map m1) =>
      match v with
      | .map m2 =>
          match mergeInto m1 m2 with
          | .error e => .error e
          | .ok m' => .ok (Node.mapSet d1 k (.map m'))
      | .fact _ => .error "AttributeError: object has no attribute items"
      | .lst _ => .error "AttributeError: object has no attribute items"
      | .nil => .error "AttributeError: object has no attribute items"
  | some (.fact _) => mergeFactArm d1 k v
  | some (.lst l1) => mergeListArm d1 k l1 v
  | some .nil => .error "AttributeError: NoneType object has no attribute update"

end

mutual

/-- `Container.list_object_factories` (lines 355–368): collect every
non-dict value reachable in the map, skipping the reserved side-index
subtrees only when they are dicts (so a `None` or factory-valued `_config`
IS collected). -/
def listObjectFactories : List (String × Node) → List Node
  | [] => []
  | (k, v) :: rest => lofEntry k v ++ listObjectFactories rest

/-- One entry of the `list_object_factories` loop body. -/
def lofEntry (k : String) : Node → List Node
  | .map m =>
      if k = "_group" ∨ k = "_alias" ∨ k = "_config" then []
      else listObjectFactories m
  | .fact f => [.fact f]
  | .lst l => [.lst l]
  | .nil => [.nil]

end

/-- The rebind loop of `Container.update` (lines 337–338):
`obj.update_containers(self.__container)` for every collected object; a
collected non-factory (e.g. a `None` config slot) raises
`AttributeError`. -/
def rebindFactories (w : World) (cid : Nat) : List Node → Except String World
  | [] => .ok w
  | .fact f :: rest => rebindFactories (w.setFactContainers f cid) cid rest
  | .map _ :: _ => .error "AttributeError: update_containers"
  | .lst _ :: _ => .error "AttributeError: update_containers"
  | .nil :: _ => .error "AttributeError: update_containers"

/-- `Container.update` (lines 331–338): merge the other container's map
into this one in place, then rebind every collected factory to this
container's map.  (The `isinstance(container, Container)` guard is met by
construction: both arguments denote containers.) -/
def containerUpdate (w : World) (aCid bCid : Nat) : Except String World :=
  match mergeInto (w.getCont aCid) (w.getCont bCid) with
  | .error e => .error e
  | .ok merged =>
      let w1 := w.setCont aCid merged
      rebindFactories w1 aCid (listObjectFactories merged)

/-! ## Frame properties of the resolution engine -/

/-- Cache well-formedness: every cached singleton id refers to an
already-allocated object (true of all worlds built by registration, where
caches start out empty). -/
def WfCaches (w : World) : Prop :=
  ∀ g o, (w.getFact g).cache = some o → o < w.objCls.length

/-- What a single resolution operation can do to the world: it never
touches the class table, the registry maps, the factory count or any
factory's identity fields; it only appends fresh allocations; an existing
singleton cache entry survives unchanged; and any cache entry present
afterwards is either the old one or a fresh allocation. -/
structure Pres (w w' : World) : Prop where
  classes_eq : w'.classes = w.classes
  conts_eq : w'.conts = w.conts
  facts_len : w'.facts.length = w.facts.length
  objCls_ext : ∃ ext, w'.objCls = w.objCls ++ ext
  fact_fields : ∀ g, (w'.getFact g).classObject = (w.getFact g).classObject ∧
      (w'.getFact g).containers = (w.getFact g).containers ∧
      (w'.getFact g).depArgs = (w.getFact g).depArgs ∧
      (w'.getFact g).depKwargs = (w.getFact g).depKwargs
  cache_mono : ∀ g o, (w.getFact g).cache = some o → (w'.getFact g).cache = some o
  cache_new : ∀ g o, (w'.getFact g).cache = some o →
      (w.getFact g).cache = some o ∨ o < w'.objCls.length

theorem Pres.objCls_le {w w' : World} (h : Pres w w') :
    w.objCls.length ≤ w'.objCls.length := by
  obtain ⟨ext, he⟩ := h.objCls_ext
  simp [he]

theorem Pres.same (w : World) : Pres w w :=
  ⟨rfl, rfl, rfl, ⟨[], by simp⟩, fun _ => ⟨rfl, rfl, rfl, rfl⟩,
   fun _ _ h => h, fun _ _ h => .inl h⟩

theorem Pres.trans {w1 w2 w3 : World} (a : Pres w1 w2) (b : Pres w2 w3) :
    Pres w1 w3 where
  classes_eq := b.classes_eq.trans a.classes_eq
  conts_eq := b.conts_eq.trans a.conts_eq
  facts_len := b.facts_len.trans a.facts_len
  objCls_ext := by
    obtain ⟨e1, h1⟩ := a.objCls_ext
    obtain ⟨e2, h2⟩ := b.objCls_ext
    exact ⟨e1 ++ e2, by rw [h2, h1, List.append_assoc]⟩
  fact_fields := fun g => by
    obtain ⟨x1, x2, x3, x4⟩ := a.fact_fields g
    obtain ⟨y1, y2, y3, y4⟩ := b.fact_fields g
    exact ⟨y1.trans x1, y2.trans x2, y3.trans x3, y4.trans x4⟩
  cache_mono := fun g o h => b.cache_mono g o (a.cache_mono g o h)
  cache_new := fun g o h => by
    rcases b.cache_new g o h with h2 | h2
    · rcases a.cache_new g o h2 with h3 | h3
      · exact .inl h3
      · exact .inr (lt_of_lt_of_le h3 b.objCls_le)
    · exact .inr h2

theorem Pres.getCont_eq {w w' : World} (h : Pres w w') (cid : Nat) :
    w'.getCont cid = w.getCont cid := by
  unfold World.getCont; rw [h.conts_eq]

theorem Pres.getClass_eq {w w' : World} (h : Pres w w') (c : Nat) :
    w'.getClass c = w.getClass c := by
  unfold World.getClass; rw [h.classes_eq]

theorem Pres.wf {w w' : World} (h : Pres w w') (hw : WfCaches w) : WfCaches w' := by
  intro g o hc
  rcases h.cache_new g o hc with h2 | h2
  · exact lt_of_lt_of_le (hw g o h2) h.objCls_le
  · exact h2

theorem pres_allocObj (w : World) (c : Nat) : Pres w (w.allocObj c).2 :=
  ⟨rfl, rfl, rfl, ⟨[c], rfl⟩, fun _ => ⟨rfl, rfl, rfl, rfl⟩,
   fun _ _ h => h, fun _ _ h => .inl h⟩

theorem pres_constructFresh (c : Nat) (a : List PyVal)
    (k : List (String × PyVal)) (w : World) :
    Pres w (constructFresh c a k w).2 := by
  unfold constructFresh
  split
  · exact Pres.same w
  · exact pres_allocObj w c

theorem constructFresh_facts (c : Nat) (a : List PyVal)
    (k : List (String × PyVal)) (w : World) :
    (constructFresh c a k w).2.facts = w.facts := by
  unfold constructFresh
  split <;> rfl

/-- `setCache` seen through `getFact`. -/
theorem getFact_setCache (w : World) (fid g o : Nat) :
    (w.setCache fid o).getFact g =
      if fid = g ∧ fid < w.facts.length
      then { w.getFact fid with cache := some o }
      else w.getFact g := by
  unfold World.setCache World.getFact
  simp only [List.getD_eq_getElem?_getD, List.getElem?_set]
  by_cases h1 : fid = g
  · subst h1
    by_cases h2 : fid < w.facts.length
    · simp [h2]
    · rw [if_pos rfl, if_neg h2, if_neg (fun hh => h2 hh.2),
          List.getElem?_eq_none (Nat.le_of_not_lt h2)]
  · rw [if_neg h1, if_neg (fun hh => h1 hh.1)]

/-- A cache write of a freshly allocated object, composed after a
preserving operation on a factory whose cache was empty at the start,
is itself preserving. -/
theorem pres_setCache_after {w w2 : World} (fid o : Nat)
    (hp : Pres w w2) (hc : (w.getFact fid).cache = none)
    (ho : o < w2.objCls.length) : Pres w (w2.setCache fid o) where
  classes_eq := hp.classes_eq
  conts_eq := hp.conts_eq
  facts_len := by
    show (w2.facts.set fid _).length = w.facts.length
    rw [List.length_set]; exact hp.facts_len
  objCls_ext := hp.objCls_ext
  fact_fields := fun g => by
    rw [getFact_setCache]
    split
    · next hg =>
        cases hg.1
        exact hp.fact_fields _
    · exact hp.fact_fields g
  cache_mono := fun g o2 h => by
    rw [getFact_setCache]
    split
    · next hg =>
        cases hg.1
        rw [hc] at h
        cases h
    · exact hp.cache_mono g o2 h
  cache_new := fun g o2 h => by
    rw [getFact_setCache] at h
    revert h
    split
    · intro h
      simp only at h
      cases h
      exact .inr ho
    · intro h
      rcases hp.cache_new g o2 h with h2 | h2
      · exact .inl h2
      · exact .inr h2

/-- Master frame lemma, proved by one induction on the fuel across the
whole mutual resolution engine: every operation preserves the `Pres`
frame, and a successful `__create_instance` returns an object freshly
allocated during the call. -/
theorem presAll : ∀ fuel : Nat,
    (∀ d cid w, Pres w (buildDesc fuel d cid w).2) ∧
    (∀ obj single a k w, Pres w (dispatchNode fuel obj single a k w).2) ∧
    (∀ fid a k w, Pres w (factoryInstance fuel fid a k w).2) ∧
    (∀ fid a k w, Pres w (createInstance fuel fid a k w).2) ∧
    (∀ fid a k w o w', createInstance fuel fid a k w = (.ok o, w') →
        w.objCls.length ≤ o ∧ o < w'.objCls.length) ∧
    (∀ ds cid w, Pres w (resolveArgs fuel ds cid w).2) ∧
    (∀ ds cid w, Pres w (resolveKwargs fuel ds cid w).2) ∧
    (∀ fids single a k w, Pres w (resolveGroupMembers fuel fids single a k w).2) := by
  intro fuel
  induction fuel with
  | zero =>
      refine ⟨fun d cid w => ?_, fun obj single a k w => ?_, fun fid a k w => ?_,
              fun fid a k w => ?_, fun fid a k w o w' h => ?_, fun ds cid w => ?_,
              fun ds cid w => ?_, fun fids single a k w => ?_⟩
      · rw [buildDesc]; exact Pres.same w
      · rw [dispatchNode]; exact Pres.same w
      · rw [factoryInstance]; exact Pres.same w
      · rw [createInstance]; exact Pres.same w
      · rw [createInstance] at h; simp at h
      · rw [resolveArgs]; exact Pres.same w
      · rw [resolveKwargs]; exact Pres.same w
      · rw [resolveGroupMembers]; exact Pres.same w
  | succ n ih =>
      obtain ⟨ihB, ihD, ihI, ihC, ihCo, ihA, ihK, ihG⟩ := ih
      refine ⟨fun d cid w => ?_, fun obj single a k w => ?_, fun fid a k w => ?_,
              fun fid a k w => ?_, fun fid a k w o w' h => ?_, fun ds cid w => ?_,
              fun ds cid w => ?_, fun fids single a k w => ?_⟩
      -- buildDesc
      · cases d with
        | direct target single args kwargs =>
            cases target with
            | cls c =>
                rw [buildDesc]
                split
                · split
                  all_goals rename_i w1 heq
                  all_goals have hp := pres_constructFresh c args kwargs w
                  all_goals rw [heq] at hp
                  all_goals exact hp
                · split
                  all_goals rename_i w1 heq
                  all_goals have hp := ihD (walkPath (w.getCont cid) (w.getClass c).path) single args kwargs w
                  all_goals rw [heq] at hp
                  all_goals exact hp
            | lit p => rw [buildDesc]; exact Pres.same w
            | descObj => rw [buildDesc]; exact Pres.same w
            | other => rw [buildDesc]; exact Pres.same w
        | path p single args kwargs =>
            rw [buildDesc]
            split
            · exact Pres.same w
            · split
              all_goals rename_i w1 heq
              all_goals have hp := ihD (walkPath (w.getCont cid) (splitSegs p)) single args kwargs w
              all_goals rw [heq] at hp
              all_goals exact hp
        | config cpath placeholder fmt =>
            rw [buildDesc]
            split
            · rename_i f hmc
              split
              all_goals rename_i w1 heq
              all_goals have hp := ihI f [] [] w
              all_goals rw [heq] at hp
              · split
                · exact hp
                · exact hp
              · exact hp
            · exact Pres.same w
        | group gname single args kwargs =>
            rw [buildDesc]
            split
            · exact Pres.same w
            · rename_i ges hmg
              split
              · exact Pres.same w
              · rename_i fids hg
                exact ihG fids single args kwargs w
              · exact Pres.same w
              · exact Pres.same w
              · exact Pres.same w
            · exact Pres.same w
            · exact Pres.same w
            · exact Pres.same w
        | callback cb single args kwargs =>
            cases cb with
            | raises => rw [buildDesc]; exact Pres.same w
            | value v => rw [buildDesc]; exact Pres.same w
            | retClass c =>
                rw [buildDesc]
                split
                · split
                  all_goals rename_i w1 heq
                  all_goals have hp := pres_constructFresh c args kwargs w
                  all_goals rw [heq] at hp
                  all_goals exact hp
                · split
                  all_goals rename_i w1 heq
                  all_goals have hp := ihD (walkPath (w.getCont cid) (w.getClass c).path) single args kwargs w
                  all_goals rw [heq] at hp
                  all_goals exact hp
      -- dispatchNode
      · cases obj with
        | fact f =>
            rw [dispatchNode]
            split
            · split
              all_goals rename_i w1 heq
              all_goals have hp := ihI f a k w
              all_goals rw [heq] at hp
              all_goals exact hp
            · split
              all_goals rename_i w1 heq
              all_goals have hp := ihC f a k w
              all_goals rw [heq] at hp
              all_goals exact hp
        | map es => rw [dispatchNode]; exact Pres.same w
        | lst l => rw [dispatchNode]; exact Pres.same w
        | nil => rw [dispatchNode]; exact Pres.same w
      -- factoryInstance
      · rw [factoryInstance]
        split
        · exact Pres.same w
        · rename_i hc
          split
          · rename_i o w1 heq
            have hp := ihC fid a k w
            rw [heq] at hp
            exact pres_setCache_after fid o hp hc (ihCo fid a k w o w1 heq).2
          · rename_i e w1 heq
            have hp := ihC fid a k w
            rw [heq] at hp
            exact hp
      -- createInstance (frame)
      · rw [createInstance]
        split
        · rename_i e w1 heq
          have h1 := ihA (w.getFact fid).depArgs (w.getFact fid).containers w
          rw [heq] at h1
          exact h1
        · rename_i vals w1 heq
          have h1 := ihA (w.getFact fid).depArgs (w.getFact fid).containers w
          rw [heq] at h1
          split
          · rename_i e w2 heq2
            have h2 := ihK (w.getFact fid).depKwargs (w.getFact fid).containers w1
            rw [heq2] at h2
            exact h1.trans h2
          · rename_i kvals w2 heq2
            have h2 := ihK (w.getFact fid).depKwargs (w.getFact fid).containers w1
            rw [heq2] at h2
            split
            · exact h1.trans h2
            · exact (h1.trans h2).trans (pres_allocObj w2 _)
      -- createInstance (freshness)
      · rw [createInstance] at h
        split at h
        · simp at h
        · rename_i vals w1 heqA
          split at h
          · simp at h
          · rename_i kvals w2 heqK
            split at h
            · simp at h
            · have h1 := ihA (w.getFact fid).depArgs (w.getFact fid).containers w
              rw [heqA] at h1
              have h2 := ihK (w.getFact fid).depKwargs (w.getFact fid).containers w1
              rw [heqK] at h2
              simp only [World.allocObj, Prod.mk.injEq, Except.ok.injEq] at h
              obtain ⟨ho, hw⟩ := h
              subst ho
              refine ⟨le_trans h1.objCls_le h2.objCls_le, ?_⟩
              rw [← hw]
              simp
      -- resolveArgs
      · cases ds with
        | nil => rw [resolveArgs]; exact Pres.same w
        | cons d rest =>
            rw [resolveArgs]
            split
            · rename_i e w1 heq
              have h1 := ihB d cid w
              rw [heq] at h1
              exact h1
            · rename_i v w1 heq
              have h1 := ihB d cid w
              rw [heq] at h1
              split
              all_goals rename_i w2 heq2
              all_goals have h2 := ihA rest cid w1
              all_goals rw [heq2] at h2
              all_goals exact h1.trans h2
      -- resolveKwargs
      · cases ds with
        | nil => rw [resolveKwargs]; exact Pres.same w
        | cons kd rest =>
            rcases kd with ⟨kk, kv⟩
            rw [resolveKwargs]
            split
            · rename_i e w1 heq
              have h1 := ihB kv cid w
              rw [heq] at h1
              exact h1
            · rename_i v w1 heq
              have h1 := ihB kv cid w
              rw [heq] at h1
              split
              all_goals rename_i w2 heq2
              all_goals have h2 := ihK rest cid w1
              all_goals rw [heq2] at h2
              all_goals exact h1.trans h2
      -- resolveGroupMembers
      · cases fids with
        | nil => rw [resolveGroupMembers]; exact Pres.same w
        | cons f rest =>
            rw [resolveGroupMembers]
            cases single with
            | true =>
                split
                all_goals rename_i w1 heq
                all_goals rw [if_pos rfl] at heq
                all_goals have hp := ihI f a k w
                all_goals rw [heq] at hp
                all_goals exact hp.trans (ihG rest true a k w1)
            | false =>
                split
                all_goals rename_i w1 heq
                all_goals rw [if_neg (fun hh => Bool.false_ne_true hh)] at heq
                all_goals have hp := ihC f a k w
                all_goals rw [heq] at hp
                all_goals exact hp.trans (ihG rest false a k w1)

theorem pres_buildDesc (fuel : Nat) (d : Descriptor) (cid : Nat) (w : World) :
    Pres w (buildDesc fuel d cid w).2 := (presAll fuel).1 d cid w

theorem pres_factoryInstance (fuel fid : Nat) (a : List PyVal)
    (k : List (String × PyVal)) (w : World) :
    Pres w (factoryInstance fuel fid a k w).2 := (presAll fuel).2.2.1 fid a k w

theorem pres_createInstance (fuel fid : Nat) (a : List PyVal)
    (k : List (String × PyVal)) (w : World) :
    Pres w (createInstance fuel fid a k w).2 := (presAll fuel).2.2.2.1 fid a k w

/-- A successful `__create_instance` returns an object allocated during
that very call — fresher than everything that existed before. -/
theorem createInstance_fresh {fuel fid : Nat} {a : List PyVal}
    {k : List (String × PyVal)} {w : World} {o : Nat} {w' : World}
    (h : createInstance fuel fid a k w = (.ok o, w')) :
    w.objCls.length ≤ o ∧ o < w'.objCls.length :=
  (presAll fuel).2.2.2.2.1 fid a k w o w' h

theorem pres_resolveArgs (fuel : Nat) (ds : List Descriptor) (cid : Nat)
    (w : World) : Pres w (resolveArgs fuel ds cid w).2 :=
  (presAll fuel).2.2.2.2.2.1 ds cid w

theorem pres_resolveKwargs (fuel : Nat) (ds : List (String × Descriptor))
    (cid : Nat) (w : World) : Pres w (resolveKwargs fuel ds cid w).2 :=
  (presAll fuel).2.2.2.2.2.2.1 ds cid w

theorem pres_resolveGroupMembers (fuel : Nat) (fids : List Nat) (single : Bool)
    (a : List PyVal) (k : List (String × PyVal)) (w : World) :
    Pres w (resolveGroupMembers fuel fids single a k w).2 :=
  (presAll fuel).2.2.2.2.2.2.2 fids single a k w

/-- `instance()` with a populated cache: the cached object comes straight
back and the world is untouched, whatever the extra arguments. -/
theorem factoryInstance_hit {n fid : Nat} {w : World} {o : Nat}
    (hc : (w.getFact fid).cache = some o) (a : List PyVal)
    (k : List (String × PyVal)) :
    factoryInstance (n+1) fid a k w = (.ok o, w) := by
  rw [factoryInstance, hc]

/-- A successful `instance()` call leaves the returned object in the
factory's cache. -/
theorem factoryInstance_ok_cache {fuel fid : Nat} {a : List PyVal}
    {k : List (String × PyVal)} {w : World} {o : Nat} {w' : World}
    (h : factoryInstance fuel fid a k w = (.ok o, w'))
    (hfid : fid < w.facts.length) :
    (w'.getFact fid).cache = some o := by
  cases fuel with
  | zero => rw [factoryInstance] at h; simp at h
  | succ n =>
      rw [factoryInstance] at h
      split at h
      · rename_i o0 hc
        simp only [Prod.mk.injEq, Except.ok.injEq] at h
        obtain ⟨ho, hw⟩ := h
        subst ho
        subst hw
        exact hc
      · rename_i hc
        split at h
        · rename_i o1 w1 heq
          simp only [Prod.mk.injEq, Except.ok.injEq] at h
          obtain ⟨ho, hw⟩ := h
          subst ho
          rw [← hw, getFact_setCache,
              if_pos ⟨rfl, by rw [(pres_createInstance n fid a k w).facts_len.symm] at hfid
                              rw [heq] at hfid
                              exact hfid⟩]
        · simp at h

/-- In a cache-well-formed world a successful `instance()` returns an
allocated object (cached from before, or created just now). -/
theorem factoryInstance_ok_lt {fuel fid : Nat} {a : List PyVal}
    {k : List (String × PyVal)} {w : World} {o : Nat} {w' : World}
    (h : factoryInstance fuel fid a k w = (.ok o, w')) (hwf : WfCaches w) :
    o < w'.objCls.length := by
  cases fuel with
  | zero => rw [factoryInstance] at h; simp at h
  | succ n =>
      rw [factoryInstance] at h
      split at h
      · rename_i o0 hc
        simp only [Prod.mk.injEq, Except.ok.injEq] at h
        obtain ⟨ho, hw⟩ := h
        subst ho
        subst hw
        exact hwf fid _ hc
      · rename_i hc
        split at h
        · rename_i o1 w1 heq
          simp only [Prod.mk.injEq, Except.ok.injEq] at h
          obtain ⟨ho, hw⟩ := h
          subst ho
          rw [← hw]
          exact (createInstance_fresh heq).2
        · simp at h

/-- A failing `instance()` is exactly a failing `__create_instance` — the
cache write after creation is skipped. -/
theorem factoryInstance_error_to_create {n fid : Nat} {a : List PyVal}
    {k : List (String × PyVal)} {w : World} {e : String} {w' : World}
    (h : factoryInstance (n+1) fid a k w = (.error e, w')) :
    createInstance n fid a k w = (.error e, w') := by
  rw [factoryInstance] at h
  split at h
  · simp at h
  · split at h
    · simp at h
    · rename_i e1 w1 heq
      simp only [Prod.mk.injEq, Except.error.injEq] at h
      obtain ⟨he, hw⟩ := h
      subst he
      subst hw
      exact heq

/-- A dependency-descriptor error in the positional comprehension
propagates out of `__create_instance` verbatim (it happens before the
`try`). -/
theorem createInstance_depArgsError {n fid : Nat} {a : List PyVal}
    {k : List (String × PyVal)} {w : World} {e : String} {w1 : World}
    (hra : resolveArgs n (w.getFact fid).depArgs (w.getFact fid).containers w
      = (.error e, w1)) :
    createInstance (n+1) fid a k w = (.error e, w1) := by
  rw [createInstance, hra]

/-- Likewise for the keyword comprehension. -/
theorem createInstance_depKwargsError {n fid : Nat} {a : List PyVal}
    {k : List (String × PyVal)} {w : World} {vals : List PyVal} {w1 : World}
    {e : String} {w2 : World}
    (hra : resolveArgs n (w.getFact fid).depArgs (w.getFact fid).containers w
      = (.ok vals, w1))
    (hrk : resolveKwargs n (w.getFact fid).depKwargs (w.getFact fid).containers w1
      = (.error e, w2)) :
    createInstance (n+1) fid a k w = (.error e, w2) := by
  rw [createInstance, hra]
  dsimp only
  rw [hrk]

/-- A raising constructor is the one failure that IS wrapped into
`"Unable to create … instance."`. -/
theorem createInstance_ctorError {n fid : Nat} {a : List PyVal}
    {k : List (String × PyVal)} {w : World} {vals : List PyVal} {w1 : World}
    {kvals : List (String × PyVal)} {w2 : World}
    (hra : resolveArgs n (w.getFact fid).depArgs (w.getFact fid).containers w
      = (.ok vals, w1))
    (hrk : resolveKwargs n (w.getFact fid).depKwargs (w.getFact fid).containers w1
      = (.ok kvals, w2))
    (hct : (w2.getClass (w.getFact fid).classObject).ctorRaises
      (vals ++ a) (mergeKw kvals k) = true) :
    createInstance (n+1) fid a k w
      = (.error (unableMsg (w2.getClass (w.getFact fid).classObject).path), w2) := by
  rw [createInstance, hra]
  dsimp only
  rw [hrk]
  dsimp only
  rw [if_pos hct]

/-! ## Concrete worlds used by witnesses and counterexamples -/

/-- A config-style class at `m.Cfg`: constructor always succeeds, instances
implement `get`, returning the queried config path tagged as a string. -/
def cfgClass : ClassSpec :=
  { path := ["m", "Cfg"], ctorRaises := fun _ _ => false,
    hasGet := true, getFn := fun p _ _ => .prim (.str p) }

/-- A plain class at `m.C`: constructor always succeeds, no `get`. -/
def plainClass : ClassSpec :=
  { path := ["m", "C"], ctorRaises := fun _ _ => false,
    hasGet := false, getFn := fun _ _ _ => .pynone }

/-- Another plain class, at `n.D`. -/
def otherClass : ClassSpec :=
  { path := ["n", "D"], ctorRaises := fun _ _ => false,
    hasGet := false, getFn := fun _ _ _ => .pynone }

/-- The empty world over this little class table (class ids: 0 = `m.Cfg`,
1 = `m.C`, 2 = `n.D`). -/
def baseWorld : World :=
  { classes := [cfgClass, plainClass, otherClass],
    facts := [], conts := [], objCls := [] }

/-- A world with one container in which `m.C` is registered with no
dependencies (factory 0). -/
def regWorld : World :=
  { baseWorld with
    facts := [{ classObject := 1, containers := 0, depArgs := [],
                depKwargs := [], cache := none }],
    conts := [[("_group", .map []), ("_alias", .map []), ("_config", .nil),
               ("m", .map [("C", .fact 0)])]] }

/-- Worlds whose factories all have empty caches are cache-well-formed. -/
theorem wfCaches_of_none (w : World) (hn : ∀ g, (w.getFact g).cache = none) :
    WfCaches w := fun g o hc => by rw [hn g] at hc; cases hc

/-! ## C1 — singleton `instance()` vs fresh `build()` -/

/-- **C1.** After a successful `instance()` on a registered factory, every
later `instance()` call returns the identical cached object (whatever the
extra arguments) without touching the world; successful `build()` calls
return brand-new objects, pairwise distinct and distinct from the cached
singleton; and after any number of builds the cache still answers with the
original singleton. -/
theorem c1_singleton_cache_and_build
    (fuel1 fuel2 fuel3 : Nat) (fid : Nat)
    (a1 a2 a3 : List PyVal) (k1 k2 k3 : List (String × PyVal))
    (w w1 w2 w3 : World) (o1 o2 o3 : Nat)
    (hwf : WfCaches w) (hfid : fid < w.facts.length)
    (h1 : factoryInstance fuel1 fid a1 k1 w = (.ok o1, w1))
    (h2 : factoryBuild fuel2 fid a2 k2 w1 = (.ok o2, w2))
    (h3 : factoryBuild fuel3 fid a3 k3 w2 = (.ok o3, w3)) :
    (∀ n a k, factoryInstance (n+1) fid a k w1 = (.ok o1, w1)) ∧
    o2 ≠ o1 ∧ o3 ≠ o1 ∧ o3 ≠ o2 ∧
    (∀ n a k, factoryInstance (n+1) fid a k w3 = (.ok o1, w3)) := by
  rw [factoryBuild] at h2 h3
  have hc1 : (w1.getFact fid).cache = some o1 := factoryInstance_ok_cache h1 hfid
  have ho1 : o1 < w1.objCls.length := factoryInstance_ok_lt h1 hwf
  have hp2 : Pres w1 w2 := by
    have hx := pres_createInstance fuel2 fid a2 k2 w1
    rw [h2] at hx
    exact hx
  have hp3 : Pres w2 w3 := by
    have hx := pres_createInstance fuel3 fid a3 k3 w2
    rw [h3] at hx
    exact hx
  have hf2 := createInstance_fresh h2
  have hf3 := createInstance_fresh h3
  have hc2 : (w2.getFact fid).cache = some o1 := hp2.cache_mono fid o1 hc1
  have hc3 : (w3.getFact fid).cache = some o1 := hp3.cache_mono fid o1 hc2
  have hle12 : w1.objCls.length ≤ w2.objCls.length := hp2.objCls_le
  refine ⟨fun n a k => factoryInstance_hit hc1 a k, by omega, by omega, by omega,
          fun n a k => factoryInstance_hit hc3 a k⟩

/-- Worlds reached while running the C1 scenario on `regWorld`:
`instance()`, then two `build()` calls. -/
def c1w1 : World := (factoryInstance 3 0 [] [] regWorld).2

def c1w2 : World := (factoryBuild 3 0 [] [] c1w1).2

def c1w3 : World := (factoryBuild 3 0 [] [] c1w2).2

theorem c1_witness :
    (∀ n a k, factoryInstance (n+1) 0 a k c1w1 = (.ok 0, c1w1)) ∧
    (1 : Nat) ≠ 0 ∧ (2 : Nat) ≠ 0 ∧ (2 : Nat) ≠ 1 ∧
    (∀ n a k, factoryInstance (n+1) 0 a k c1w3 = (.ok 0, c1w3)) :=
  c1_singleton_cache_and_build 3 3 3 0 [] [] [] [] [] []
    regWorld c1w1 c1w2 c1w3 0 1 2
    (wfCaches_of_none regWorld (fun g => by cases g with | zero => rfl | succ m => rfl))
    (by decide) rfl rfl rfl

/-! ## C3 — error wrapping in `__create_instance` -/

/-- A world whose only factory (for `m.C`) declares a
`DependencyConfig("a.b")` positional dependency, in a container where no
config object was designated. -/
def c3W : World :=
  { baseWorld with
    facts := [{ classObject := 1, containers := 0,
                depArgs := [.config "a.b" .pynone "str"], depKwargs := [],
                cache := none }],
    conts := [[("_group", .map []), ("_alias", .map []), ("_config", .nil),
               ("m", .map [("C", .fact 0)])]] }

/-- **C3 (counterexample).**  The claim says any error during dependency
resolution is re-raised as `"Unable to create … instance."`.  On this
factory the config descriptor's failure surfaces verbatim — dependency
resolution happens before the `try` in `__create_instance` — so the raised
error is the config error, not the wrapped one. -/
theorem c3_counterexample :
    factoryInstance 5 0 [] [] c3W = (.error configNotSetMsg, c3W) ∧
    configNotSetMsg ≠ unableMsg ["m", "C"] := ⟨rfl, by decide⟩

/-- **C3 (amended).**  Only constructor invocation is wrapped into
`"Unable to create … instance."`; errors from resolving the positional or
keyword dependency descriptors propagate unchanged; a failing `instance()`
is a failing `__create_instance` with the cache write skipped, and an
already-cached singleton survives any failure untouched. -/
theorem c3_amended (n fid : Nat) (a : List PyVal) (k : List (String × PyVal))
    (w : World) :
    (∀ e w1,
        resolveArgs n (w.getFact fid).depArgs (w.getFact fid).containers w
          = (.error e, w1) →
        createInstance (n+1) fid a k w = (.error e, w1)) ∧
    (∀ vals w1 e w2,
        resolveArgs n (w.getFact fid).depArgs (w.getFact fid).containers w
          = (.ok vals, w1) →
        resolveKwargs n (w.getFact fid).depKwargs (w.getFact fid).containers w1
          = (.error e, w2) →
        createInstance (n+1) fid a k w = (.error e, w2)) ∧
    (∀ vals w1 kvals w2,
        resolveArgs n (w.getFact fid).depArgs (w.getFact fid).containers w
          = (.ok vals, w1) →
        resolveKwargs n (w.getFact fid).depKwargs (w.getFact fid).containers w1
          = (.ok kvals, w2) →
        (w2.getClass (w.getFact fid).classObject).ctorRaises
          (vals ++ a) (mergeKw kvals k) = true →
        createInstance (n+1) fid a k w
          = (.error (unableMsg (w2.getClass (w.getFact fid).classObject).path), w2)) ∧
    (∀ e w', factoryInstance (n+1) fid a k w = (.error e, w') →
        createInstance n fid a k w = (.error e, w')) ∧
    (∀ e w' o, factoryInstance (n+1) fid a k w = (.error e, w') →
        (w.getFact fid).cache = some o → (w'.getFact fid).cache = some o) := by
  refine ⟨fun e w1 hra => createInstance_depArgsError hra,
          fun vals w1 e w2 hra hrk => createInstance_depKwargsError hra hrk,
          fun vals w1 kvals w2 hra hrk hct => createInstance_ctorError hra hrk hct,
          fun e w' h => factoryInstance_error_to_create h,
          fun e w' o h hco => ?_⟩
  have hx := pres_factoryInstance (n+1) fid a k w
  rw [h] at hx
  exact hx.cache_mono fid o hco

theorem c3_amended_witness :
    createInstance 5 0 [] [] c3W = (.error configNotSetMsg, c3W) :=
  (c3_amended 4 0 [] [] c3W).1 configNotSetMsg c3W rfl

/-! ## C4 — `DependencyPath` on an unregistered path -/

/-- A world with one fresh, empty container. -/
def freshContWorld : World := { baseWorld with conts := [initialContainerMap] }

/-- **C4.**  Resolving `DependencyPath("a.B")` against a container where
nothing is registered raises `"Object a.B is not register in containers"`
instead of constructing a fresh instance: the escape-hatch branch
evaluates `self.__class`, an attribute `DependencyPath` does not have, and
the resulting `AttributeError` is swallowed into the not-register error —
contradicting the code's own comment
`# Unregister dependency return normal class ( always new instance )`. -/
theorem c4_path_absent_raises :
    buildDesc 5 (.path "a.B" true [] []) 0 freshContWorld
      = (.error "Object a.B is not register in containers", freshContWorld) := rfl

/-! ## C5 — the escape hatch of the Direct descriptor -/

/-- **C5.**  A `Dependency` wrapping a class whose registry walk comes up
empty resolves to a freshly constructed instance: the object id is the
next allocation, the world changes only by that allocation (in particular
no factory and no cache is touched), and an immediately repeated
resolution yields a different fresh object. -/
theorem c5_unregistered_direct
    (fuel c cid : Nat) (single : Bool) (args : List PyVal)
    (kwargs : List (String × PyVal)) (w : World)
    (hwalk : walkPath (w.getCont cid) (w.getClass c).path = .nil)
    (hctor : (w.getClass c).ctorRaises args kwargs = false) :
    buildDesc (fuel+1) (.direct (.cls c) single args kwargs) cid w
      = (.ok (.obj w.objCls.length), { w with objCls := w.objCls ++ [c] }) ∧
    PyVal.obj w.objCls.length ≠ .obj (w.objCls.length + 1) ∧
    buildDesc (fuel+1) (.direct (.cls c) single args kwargs) cid
        { w with objCls := w.objCls ++ [c] }
      = (.ok (.obj (w.objCls.length + 1)),
         { w with objCls := w.objCls ++ [c, c] }) := by
  have key : ∀ w2 : World, w2.getCont cid = w.getCont cid →
      w2.getClass c = w.getClass c →
      buildDesc (fuel+1) (.direct (.cls c) single args kwargs) cid w2
        = (.ok (.obj w2.objCls.length), { w2 with objCls := w2.objCls ++ [c] }) := by
    intro w2 hcont hcls
    rw [buildDesc, hcont, hcls, hwalk]
    dsimp only
    unfold constructFresh
    rw [hcls, hctor]
    dsimp only [World.allocObj]
    rfl
  refine ⟨key w rfl rfl, by simp, ?_⟩
  have h2 := key { w with objCls := w.objCls ++ [c] } rfl rfl
  rw [h2]
  simp

theorem c5_witness :
    buildDesc 3 (.direct (.cls 2) true [] []) 0 freshContWorld
      = (.ok (.obj 0), { freshContWorld with objCls := [2] }) :=
  (c5_unregistered_direct 2 2 0 true [] [] freshContWorld rfl rfl).1

/-! ## C7 — `DependencyConfig` resolution -/

/-- **C7.**  Config resolution fails with the config-not-set error when the
`_config` slot is empty (or missing), fails with the must-implement-`get`
error when the designated factory's resolved instance lacks a callable
`get`, and otherwise returns the config object's
`get(config_path, placeholder, value_format)` verbatim. -/
theorem c7_config_resolution (n cid : Nat) (cpath : String) (ph : PyVal)
    (fmt : String) (w : World) :
    ((Node.mapGet (w.getCont cid) "_config" = some .nil ∨
      Node.mapGet (w.getCont cid) "_config" = none) →
        buildDesc (n+1) (.config cpath ph fmt) cid w = (.error configNotSetMsg, w)) ∧
    (∀ f o w', Node.mapGet (w.getCont cid) "_config" = some (.fact f) →
        factoryInstance n f [] [] w = (.ok o, w') →
        (w'.getClass (w'.objCls.getD o 0)).hasGet = false →
        buildDesc (n+1) (.config cpath ph fmt) cid w = (.error configGetMsg, w')) ∧
    (∀ f o w', Node.mapGet (w.getCont cid) "_config" = some (.fact f) →
        factoryInstance n f [] [] w = (.ok o, w') →
        (w'.getClass (w'.objCls.getD o 0)).hasGet = true →
        buildDesc (n+1) (.config cpath ph fmt) cid w
          = (.ok ((w'.getClass (w'.objCls.getD o 0)).getFn cpath ph fmt), w')) := by
  refine ⟨fun hcase => ?_, fun f o w' hm hfi hget => ?_, fun f o w' hm hfi hget => ?_⟩
  · rcases hcase with hm | hm <;> rw [buildDesc, hm]
  · rw [buildDesc, hm]
    dsimp only
    rw [hfi]
    dsimp only
    rw [hget]
    rfl
  · rw [buildDesc, hm]
    dsimp only
    rw [hfi]
    dsimp only
    rw [hget]
    rfl

/-- A world where `m.Cfg` is registered as the designated config factory. -/
def cfgWorld : World :=
  { baseWorld with
    facts := [{ classObject := 0, containers := 0, depArgs := [],
                depKwargs := [], cache := none }],
    conts := [[("_group", .map []), ("_alias", .map []),
               ("_config", .fact 0), ("m", .map [("Cfg", .fact 0)])]] }

theorem c7_witness :
    buildDesc 4 (.config "s.k" .pynone "str") 0 cfgWorld
      = (.ok (.prim (.str "s.k")), (factoryInstance 3 0 [] [] cfgWorld).2) :=
  (c7_config_resolution 3 0 "s.k" .pynone "str" cfgWorld).2.2 0 0
    (factoryInstance 3 0 [] [] cfgWorld).2 rfl rfl rfl

/-! ## C8 — `DependencyGroup` resolution -/

/-- **C8.**  With a well-formed group index: an unknown group name resolves
to the empty list without error; a known group resolves to the ordered
list produced by the member loop (never an error, whatever the members
do); and the member loop resolves each factory via `instance`/`build` per
the flag, appending successes in order and silently skipping members whose
resolution raises. -/
theorem c8_group_resolution (n : Nat) (gname : String) (single : Bool)
    (args : List PyVal) (kwargs : List (String × PyVal)) (cid : Nat)
    (w : World) (ges : List (String × Node))
    (hg : Node.mapGet (w.getCont cid) "_group" = some (.map ges)) :
    (Node.mapGet ges gname = none →
        buildDesc (n+1) (.group gname single args kwargs) cid w
          = (.ok (.vlist []), w)) ∧
    (∀ fids, Node.mapGet ges gname = some (.lst fids) →
        buildDesc (n+1) (.group gname single args kwargs) cid w
          = (.ok (.vlist (resolveGroupMembers n fids single args kwargs w).1),
             (resolveGroupMembers n fids single args kwargs w).2)) ∧
    (∀ f rest w1 e,
        (if single then factoryInstance n f args kwargs w
         else createInstance n f args kwargs w) = (.error e, w1) →
        resolveGroupMembers (n+1) (f :: rest) single args kwargs w
          = resolveGroupMembers n rest single args kwargs w1) ∧
    (∀ f rest w1 o,
        (if single then factoryInstance n f args kwargs w
         else createInstance n f args kwargs w) = (.ok o, w1) →
        resolveGroupMembers (n+1) (f :: rest) single args kwargs w
          = (.obj o :: (resolveGroupMembers n rest single args kwargs w1).1,
             (resolveGroupMembers n rest single args kwargs w1).2)) := by
  refine ⟨fun hnone => ?_, fun fids hfids => ?_, fun f rest w1 e hmem => ?_,
          fun f rest w1 o hmem => ?_⟩
  · rw [buildDesc, hg]
    dsimp only
    rw [hnone]
  · rw [buildDesc, hg]
    dsimp only
    rw [hfids]
  · rw [resolveGroupMembers, hmem]
  · rw [resolveGroupMembers, hmem]

/-! ## C2 — Facade attribute access -/

/-- A container map with no direct binding for `"X"` but an alias entry
`"X" ↦ factory 0`. -/
def c2Map : List (String × Node) :=
  [("_group", .map []), ("_alias", .map [("X", .fact 0)]), ("_config", .nil)]

/-- **C2 (counterexample).**  Looking up `"X"`: the direct binding is
absent and the alias index has an entry, yet `__getattr__` answers
`None` — it neither falls back to the alias nor raises
`"Dependency X is not register"`, because `self.__container.get(key)`
returns `None` instead of raising, leaving the whole handler dead. -/
theorem c2_counterexample :
    containerGetattr c2Map "X" = .ok .nil ∧
    Node.mapGet c2Map "X" = none ∧
    Node.mapGet [("X", Node.fact 0)] "X" = some (.fact 0) ∧
    (Except.ok Node.nil : Except String Node) ≠ .ok (.fact 0) ∧
    (∀ e, containerGetattr c2Map "X" ≠ .error e) := by
  refine ⟨rfl, rfl, rfl, fun h => ?_, fun e h => ?_⟩
  · injection h with h2
    exact Node.noConfusion h2
  · rw [show containerGetattr c2Map "X" = .ok Node.nil from rfl] at h
    exact Except.noConfusion h

/-- **C2 (amended).**  Facade attribute access always returns the direct
`dict.get` result — the stored node, or `None` for an absent key — and
never raises: the alias fallback and the not-register error in
`__getattr__` are unreachable. -/
theorem c2_amended (m : List (String × Node)) (key : String) :
    containerGetattr m key = .ok ((Node.mapGet m key).getD .nil) ∧
    ∀ e, containerGetattr m key ≠ .error e := by
  refine ⟨rfl, fun e h => ?_⟩
  rw [show containerGetattr m key = .ok ((Node.mapGet m key).getD .nil) from rfl] at h
  exact Except.noConfusion h

/-! ## Registration: the factory built by `register` -/

/-- What `register` appends to the factory heap on success. -/
theorem register_ok_factory {w : World} {cid cls : Nat} {args : List RegArg}
    {kwargs : List (String × RegKwVal)} {w' : World}
    (h : register w cid cls args kwargs = .ok w') :
    w'.facts = w.facts ++
      [{ classObject := cls, containers := cid,
         depArgs := args.map wrapPos,
         depKwargs := (popKw (popKw (popKw kwargs "_group").2 "_alias").2 "_config").2.map
           (fun kv => (kv.1, wrapKwVal kv.2)),
         cache := none }] := by
  rw [register] at h
  dsimp only at h
  split at h
  · exact absurd h (by simp)
  · split at h
    · exact absurd h (by simp)
    · split at h
      · exact absurd h (by simp)
      · simp only [Except.ok.injEq] at h
        rw [← h]
        rfl

/-- The new factory, read back through `getFact`. -/
theorem register_ok_getFact {w : World} {cid cls : Nat} {args : List RegArg}
    {kwargs : List (String × RegKwVal)} {w' : World}
    (h : register w cid cls args kwargs = .ok w') :
    w'.getFact w.facts.length =
      { classObject := cls, containers := cid,
        depArgs := args.map wrapPos,
        depKwargs := (popKw (popKw (popKw kwargs "_group").2 "_alias").2 "_config").2.map
          (fun kv => (kv.1, wrapKwVal kv.2)),
        cache := none } := by
  unfold World.getFact
  rw [register_ok_factory h]
  rw [List.getD_eq_getElem?_getD, List.getElem?_append]
  simp

/-! ## C9 — descriptor wrapping in `register` -/

/-- A callback descriptor used as a keyword argument. -/
def cbDesc : Descriptor := .callback (.value .pynone) true [] []

/-- The world after `register(C, k=DependencyCallback(...))` on a fresh
container. -/
def c9w : World :=
  (register freshContWorld 0 1 [] [("k", .arg (.desc cbDesc))]).toOption.getD
    freshContWorld

/-- **C9 (counterexample).**  A `DependencyCallback` passed as a *keyword*
argument is not passed through unchanged: the isinstance tuple in the
kwargs wrapping omits `DependencyCallback`, so the factory stores
`Dependency(<the callback descriptor object>)` — a Direct descriptor
around an unsupported object — instead of the callback descriptor. -/
theorem c9_counterexample :
    register freshContWorld 0 1 [] [("k", .arg (.desc cbDesc))] = .ok c9w ∧
    (c9w.getFact 0).depKwargs = [("k", .direct .descObj true [] [])] ∧
    Descriptor.direct .descObj true [] [] ≠ cbDesc := by
  refine ⟨rfl, rfl, fun h => ?_⟩
  rw [show cbDesc = .callback (.value .pynone) true [] [] from rfl] at h
  exact Descriptor.noConfusion h

/-- **C9 (amended).**  `register` wraps every positional argument that is
not already a descriptor in a Direct (`Dependency`) descriptor and passes
positional descriptors of all five variants unchanged; keyword arguments
are wrapped the same way for four of the five variants, but a
`DependencyCallback` keyword argument is re-wrapped into a Direct
descriptor around the (unsupported) descriptor object. -/
theorem c9_amended (w : World) (cid cls : Nat) (args : List RegArg)
    (kwargs : List (String × RegKwVal)) (w' : World)
    (h : register w cid cls args kwargs = .ok w') :
    (w'.getFact w.facts.length).depArgs = args.map wrapPos ∧
    (∀ d, wrapPos (.desc d) = d) ∧
    (∀ t, wrapPos (.raw t) = .direct t true [] []) ∧
    (w'.getFact w.facts.length).depKwargs
      = (popKw (popKw (popKw kwargs "_group").2 "_alias").2 "_config").2.map
          (fun kv => (kv.1, wrapKwVal kv.2)) ∧
    (∀ t s aa kk, wrapKwVal (.arg (.desc (.direct t s aa kk))) = .direct t s aa kk) ∧
    (∀ p s aa kk, wrapKwVal (.arg (.desc (.path p s aa kk))) = .path p s aa kk) ∧
    (∀ cp ph vf, wrapKwVal (.arg (.desc (.config cp ph vf))) = .config cp ph vf) ∧
    (∀ g s aa kk, wrapKwVal (.arg (.desc (.group g s aa kk))) = .group g s aa kk) ∧
    (∀ cb s aa kk, wrapKwVal (.arg (.desc (.callback cb s aa kk)))
      = .direct .descObj true [] []) ∧
    (∀ t, wrapKwVal (.arg (.raw t)) = .direct t true [] []) := by
  refine ⟨?_, fun d => rfl, fun t => rfl, ?_, fun t s aa kk => rfl,
          fun p s aa kk => rfl, fun cp ph vf => rfl, fun g s aa kk => rfl,
          fun cb s aa kk => rfl, fun t => rfl⟩
  · rw [register_ok_getFact h]
  · rw [register_ok_getFact h]

theorem c9_amended_witness :
    (c9w.getFact 0).depArgs = [] ∧
    (c9w.getFact 0).depKwargs
      = [("k", Descriptor.direct .descObj true [] [])] :=
  ⟨((c9_amended freshContWorld 0 1 [] [("k", .arg (.desc cbDesc))] c9w rfl).1).trans
      (by rfl),
   ((c9_amended freshContWorld 0 1 [] [("k", .arg (.desc cbDesc))] c9w rfl).2.2.2.1).trans
      (by rfl)⟩

/-! ## C10 — the reserved keywords of `register` -/

theorem lookup_map_snd {α β : Type} (f : α → β) (l : List (String × α))
    (k : String) :
    (l.map (fun kv => (kv.1, f kv.2))).lookup k = (l.lookup k).map f := by
  induction l with
  | nil => rfl
  | cons kv rest ih =>
      cases hk : (k == kv.1) <;> simp [List.lookup, hk, ih]

theorem lookup_filter_self {β : Type} (key : String) (m : List (String × β)) :
    (m.filter (fun kv => !(kv.1 == key))).lookup key = none := by
  induction m with
  | nil => rfl
  | cons kv rest ih =>
      rcases kv with ⟨k0, v0⟩
      rw [List.filter_cons]
      by_cases hk : k0 = key
      · subst hk
        simp only [beq_self_eq_true, Bool.not_true, Bool.false_eq_true, if_false]
        exact ih
      · have h1 : (!((k0, v0).1 == key)) = true := by simp [hk]
        rw [if_pos h1]
        have h2 : (key == k0) = false := by simp [Ne.symm hk]
        simp only [List.lookup, h2]
        exact ih

theorem lookup_filter_other {β : Type} (key k : String) (hne : k ≠ key)
    (m : List (String × β)) :
    (m.filter (fun kv => !(kv.1 == key))).lookup k = m.lookup k := by
  induction m with
  | nil => rfl
  | cons kv rest ih =>
      rcases kv with ⟨k0, v0⟩
      rw [List.filter_cons]
      by_cases hk : k0 = key
      · subst hk
        have h1 : (!((k0, v0).1 == k0)) = false := by simp
        rw [if_neg (by rw [h1]; exact Bool.false_ne_true)]
        have h2 : (k == k0) = false := by simp [hne]
        simp only [List.lookup, h2]
        exact ih
      · have h1 : (!((k0, v0).1 == key)) = true := by simp [hk]
        rw [if_pos h1]
        by_cases hkk : k = k0
        · subst hkk
          simp [List.lookup]
        · have h2 : (k == k0) = false := by simp [hkk]
          simp only [List.lookup, h2]
          exact ih

theorem lookup_popKw_self (m : List (String × RegKwVal)) (key : String) :
    ((popKw m key).2).lookup key = none :=
  lookup_filter_self key m

theorem lookup_popKw_other (m : List (String × RegKwVal)) (key k : String)
    (hne : k ≠ key) : ((popKw m key).2).lookup k = m.lookup k :=
  lookup_filter_other key k hne m

theorem mem_popKw {m : List (String × RegKwVal)} {key : String}
    {kv : String × RegKwVal} (hm : kv ∈ m) (hne : kv.1 ≠ key) :
    kv ∈ (popKw m key).2 := by
  unfold popKw
  simp only [List.mem_filter]
  exact ⟨hm, by simp [hne]⟩

namespace Node

theorem mapGet_mapSet_self (m : List (String × Node)) (k : String) (v : Node) :
    mapGet (mapSet m k v) k = some v := by
  induction m with
  | nil => simp [mapSet, mapGet]
  | cons kv rest ih =>
      by_cases hk : kv.1 = k
      · rcases kv with ⟨k0, v0⟩
        simp_all [mapSet, mapGet]
      · rcases kv with ⟨k0, v0⟩
        simp only at hk
        simp [mapSet, mapGet, hk, ih]

theorem mapGet_mapSet_other (m : List (String × Node)) (k k' : String)
    (v : Node) (hne : k ≠ k') :
    mapGet (mapSet m k' v) k = mapGet m k := by
  induction m with
  | nil => simp [mapSet, mapGet, Ne.symm hne]
  | cons kv rest ih =>
      rcases kv with ⟨k0, v0⟩
      by_cases hk : k0 = k'
      · subst hk
        simp [mapSet, mapGet, Ne.symm hne]
      · simp [mapSet, mapGet, hk, ih]

end Node

/-- The registry-map pipeline of a successful `register`: group index, then
alias index, then config slot, then the namespaced path, and that final
map is what the container holds. -/
theorem register_ok_cont {w : World} {cid cls : Nat} {args : List RegArg}
    {kwargs : List (String × RegKwVal)} {w' : World}
    (h : register w cid cls args kwargs = .ok w') (hcid : cid < w.conts.length) :
    ∃ m1 m2 m4,
      addGroup (w.getCont cid) (asName (popKw kwargs "_group").1)
        w.facts.length = .ok m1 ∧
      addAlias m1 (asName (popKw (popKw kwargs "_group").2 "_alias").1)
        w.facts.length = .ok m2 ∧
      setPath
        (addConfig m2
          (asFlag (popKw (popKw (popKw kwargs "_group").2 "_alias").2 "_config").1)
          w.facts.length)
        (w.getClass cls).path w.facts.length = .ok m4 ∧
      w'.getCont cid = m4 := by
  rw [register] at h
  dsimp only at h
  split at h
  · exact absurd h (by simp)
  · rename_i m1 hg
    split at h
    · exact absurd h (by simp)
    · rename_i m2 ha
      split at h
      · exact absurd h (by simp)
      · rename_i m4 hp
        simp only [Except.ok.injEq] at h
        refine ⟨m1, m2, m4, hg, ha, hp, ?_⟩
        rw [← h]
        show ((w.conts.set cid m4).getD cid []) = m4
        rw [List.getD_eq_getElem?_getD, List.getElem?_set]
        simp [hcid]

/-- `addGroup` / `addAlias` / `addConfig` / `setPath` touch only their own
top-level key. -/
theorem mapGet_addGroup_other {m : List (String × Node)} {og : Option String}
    {fid : Nat} {m1 : List (String × Node)} (h : addGroup m og fid = .ok m1)
    {key : String} (hne : key ≠ "_group") :
    Node.mapGet m1 key = Node.mapGet m key := by
  unfold addGroup at h
  split at h
  · simp only [Except.ok.injEq] at h; rw [← h]
  · split at h
    · split at h
      · simp only [Except.ok.injEq] at h
        rw [← h, Node.mapGet_mapSet_other _ _ _ _ hne]
      · simp only [Except.ok.injEq] at h
        rw [← h, Node.mapGet_mapSet_other _ _ _ _ hne]
      · exact absurd h (by simp)
    · exact absurd h (by simp)

theorem mapGet_addAlias_other {m : List (String × Node)} {oa : Option String}
    {fid : Nat} {m2 : List (String × Node)} (h : addAlias m oa fid = .ok m2)
    {key : String} (hne : key ≠ "_alias") :
    Node.mapGet m2 key = Node.mapGet m key := by
  unfold addAlias at h
  split at h
  · simp only [Except.ok.injEq] at h; rw [← h]
  · split at h
    · simp only [Except.ok.injEq] at h
      rw [← h, Node.mapGet_mapSet_other _ _ _ _ hne]
    · exact absurd h (by simp)

theorem mapGet_addConfig_other (m : List (String × Node)) (flag : Bool)
    (fid : Nat) {key : String} (hne : key ≠ "_config") :
    Node.mapGet (addConfig m flag fid) key = Node.mapGet m key := by
  unfold addConfig
  split
  · rw [Node.mapGet_mapSet_other _ _ _ _ hne]
  · rfl

theorem mapGet_setPath_other {m : List (String × Node)} {ps : List String}
    {fid : Nat} {m' : List (String × Node)} (h : setPath m ps fid = .ok m')
    {key : String} (hne : ps.head? ≠ some key) :
    Node.mapGet m' key = Node.mapGet m key := by
  cases ps with
  | nil =>
      rw [setPath] at h
      simp only [Except.ok.injEq] at h
      rw [← h]
  | cons p rest =>
      have hpk : key ≠ p := fun hh => hne (by rw [hh]; rfl)
      cases rest with
      | nil =>
          rw [setPath] at h
          simp only [Except.ok.injEq] at h
          rw [← h, Node.mapGet_mapSet_other _ _ _ _ hpk]
      | cons q rest2 =>
          rw [setPath] at h
          split at h
          · split at h
            · exact absurd h (by simp)
            · simp only [Except.ok.injEq] at h
              rw [← h, Node.mapGet_mapSet_other _ _ _ _ hpk]
          · split at h
            · exact absurd h (by simp)
            · simp only [Except.ok.injEq] at h
              rw [← h, Node.mapGet_mapSet_other _ _ _ _ hpk]
          · exact absurd h (by simp)

/-- **C10.**  `register` pops `_group`, `_alias` and `_config` out of the
keyword dict before wrapping: the built factory's keyword-descriptor map
never contains those keys (so they are neither wrapped as descriptors nor
forwarded to the wrapped constructor), every other keyword argument is
kept (wrapped), and the popped values go exactly to the group index, the
alias index and the designated-config slot of the container map. -/
theorem c10_reserved_kwargs (w : World) (cid cls : Nat) (args : List RegArg)
    (kwargs : List (String × RegKwVal)) (w' : World)
    (h : register w cid cls args kwargs = .ok w')
    (hcid : cid < w.conts.length) :
    ((w'.getFact w.facts.length).depKwargs.lookup "_group" = none ∧
     (w'.getFact w.facts.length).depKwargs.lookup "_alias" = none ∧
     (w'.getFact w.facts.length).depKwargs.lookup "_config" = none) ∧
    (∀ kk v, (kk, v) ∈ kwargs → kk ≠ "_group" → kk ≠ "_alias" → kk ≠ "_config" →
        (kk, wrapKwVal v) ∈ (w'.getFact w.facts.length).depKwargs) ∧
    (∀ g ges, kwargs.lookup "_group" = some (.name g) →
        Node.mapGet (w.getCont cid) "_group" = some (.map ges) →
        (w.getClass cls).path.head? ≠ some "_group" →
        ((Node.mapGet ges g = none →
            Node.mapGet (w'.getCont cid) "_group"
              = some (.map (Node.mapSet ges g (.lst [w.facts.length])))) ∧
         (∀ l, Node.mapGet ges g = some (.lst l) →
            Node.mapGet (w'.getCont cid) "_group"
              = some (.map (Node.mapSet ges g (.lst (l ++ [w.facts.length]))))))) ∧
    (∀ aname aes, kwargs.lookup "_alias" = some (.name aname) →
        Node.mapGet (w.getCont cid) "_alias" = some (.map aes) →
        (w.getClass cls).path.head? ≠ some "_alias" →
        Node.mapGet (w'.getCont cid) "_alias"
          = some (.map (Node.mapSet aes aname (.fact w.facts.length)))) ∧
    (kwargs.lookup "_config" = some (.flag true) →
        (w.getClass cls).path.head? ≠ some "_config" →
        Node.mapGet (w'.getCont cid) "_config" = some (.fact w.facts.length)) ∧
    ((kwargs.lookup "_config" = none ∨ kwargs.lookup "_config" = some (.flag false)) →
        (w.getClass cls).path.head? ≠ some "_config" →
        Node.mapGet (w'.getCont cid) "_config"
          = Node.mapGet (w.getCont cid) "_config") := by
  obtain ⟨m1, m2, m4, hg, ha, hp, hcont⟩ := register_ok_cont h hcid
  have hlookA : (popKw kwargs "_group").2.lookup "_alias" = kwargs.lookup "_alias" :=
    lookup_popKw_other _ _ _ (by decide)
  have hlookC : (popKw (popKw kwargs "_group").2 "_alias").2.lookup "_config"
      = kwargs.lookup "_config" := by
    rw [lookup_popKw_other _ _ _ (by decide), lookup_popKw_other _ _ _ (by decide)]
  have hdk := register_ok_getFact h
  refine ⟨⟨?_, ?_, ?_⟩, ?_, ?_, ?_, ?_, ?_⟩
  · rw [hdk]
    show ((popKw (popKw (popKw kwargs "_group").2 "_alias").2 "_config").2.map
      (fun kv => (kv.1, wrapKwVal kv.2))).lookup "_group" = none
    rw [lookup_map_snd, lookup_popKw_other _ _ _ (by decide),
        lookup_popKw_other _ _ _ (by decide), lookup_popKw_self]
    rfl
  · rw [hdk]
    show ((popKw (popKw (popKw kwargs "_group").2 "_alias").2 "_config").2.map
      (fun kv => (kv.1, wrapKwVal kv.2))).lookup "_alias" = none
    rw [lookup_map_snd, lookup_popKw_other _ _ _ (by decide), lookup_popKw_self]
    rfl
  · rw [hdk]
    show ((popKw (popKw (popKw kwargs "_group").2 "_alias").2 "_config").2.map
      (fun kv => (kv.1, wrapKwVal kv.2))).lookup "_config" = none
    rw [lookup_map_snd, lookup_popKw_self]
    rfl
  · intro kk v hmem hg1 ha1 hc1
    rw [hdk]
    show (kk, wrapKwVal v) ∈ (popKw (popKw (popKw kwargs "_group").2 "_alias").2
      "_config").2.map (fun kv => (kv.1, wrapKwVal kv.2))
    have h1 : (kk, v) ∈ (popKw kwargs "_group").2 := mem_popKw hmem hg1
    have h2 : (kk, v) ∈ (popKw (popKw kwargs "_group").2 "_alias").2 :=
      mem_popKw h1 ha1
    have h3 : (kk, v) ∈ (popKw (popKw (popKw kwargs "_group").2 "_alias").2
        "_config").2 := mem_popKw h2 hc1
    exact List.mem_map.mpr ⟨(kk, v), h3, rfl⟩
  · intro g ges hlook hges hhead
    have hgn : asName (popKw kwargs "_group").1 = some g := by
      show asName (kwargs.lookup "_group") = some g
      rw [hlook]
      rfl
    rw [hgn, addGroup] at hg
    rw [hges] at hg
    dsimp only at hg
    have transport : ∀ x, Node.mapGet m1 "_group" = x →
        Node.mapGet (w'.getCont cid) "_group" = x := by
      intro x hx
      rw [hcont, mapGet_setPath_other hp hhead, mapGet_addConfig_other _ _ _ (by decide),
          mapGet_addAlias_other ha (by decide), hx]
    constructor
    · intro hnone
      rw [hnone] at hg
      dsimp only at hg
      simp only [Except.ok.injEq] at hg
      exact transport _ (by rw [← hg, Node.mapGet_mapSet_self])
    · intro l hsome
      rw [hsome] at hg
      dsimp only at hg
      simp only [Except.ok.injEq] at hg
      exact transport _ (by rw [← hg, Node.mapGet_mapSet_self])
  · intro aname aes hlook hcaes hhead
    have han : asName (popKw (popKw kwargs "_group").2 "_alias").1 = some aname := by
      show asName ((popKw kwargs "_group").2.lookup "_alias") = some aname
      rw [hlookA, hlook]
      rfl
    have hm1a : Node.mapGet m1 "_alias" = some (.map aes) := by
      rw [mapGet_addGroup_other hg (by decide), hcaes]
    rw [han, addAlias] at ha
    rw [hm1a] at ha
    dsimp only at ha
    simp only [Except.ok.injEq] at ha
    rw [hcont, mapGet_setPath_other hp hhead, mapGet_addConfig_other _ _ _ (by decide),
        ← ha, Node.mapGet_mapSet_self]
  · intro hlook hhead
    have hcf : asFlag (popKw (popKw (popKw kwargs "_group").2 "_alias").2 "_config").1
        = true := by
      show asFlag ((popKw (popKw kwargs "_group").2 "_alias").2.lookup "_config") = true
      rw [hlookC, hlook]
      rfl
    rw [hcont, mapGet_setPath_other hp hhead]
    rw [hcf]
    show Node.mapGet (Node.mapSet m2 "_config" (.fact w.facts.length)) "_config"
      = some (.fact w.facts.length)
    rw [Node.mapGet_mapSet_self]
  · intro hlook hhead
    have hcf : asFlag (popKw (popKw (popKw kwargs "_group").2 "_alias").2 "_config").1
        = false := by
      show asFlag ((popKw (popKw kwargs "_group").2 "_alias").2.lookup "_config") = false
      rw [hlookC]
      rcases hlook with hl | hl <;> rw [hl] <;> rfl
    rw [hcont, mapGet_setPath_other hp hhead]
    rw [hcf]
    show Node.mapGet m2 "_config" = Node.mapGet (w.getCont cid) "_config"
    rw [mapGet_addAlias_other ha (by decide), mapGet_addGroup_other hg (by decide)]

def c10kw : List (String × RegKwVal) :=
  [("dep", .arg (.raw (.lit (.int 7)))), ("_group", .name "G"),
   ("_alias", .name "AL"), ("_config", .flag true)]

def c10w : World :=
  (register freshContWorld 0 1 [] c10kw).toOption.getD freshContWorld

theorem c10_witness :
    (c10w.getFact 0).depKwargs.lookup "_group" = none ∧
    ("dep", wrapKwVal (.arg (.raw (.lit (.int 7))))) ∈ (c10w.getFact 0).depKwargs ∧
    Node.mapGet (c10w.getCont 0) "_group"
      = some (.map (Node.mapSet [] "G" (.lst [0]))) ∧
    Node.mapGet (c10w.getCont 0) "_alias"
      = some (.map (Node.mapSet [] "AL" (.fact 0))) ∧
    Node.mapGet (c10w.getCont 0) "_config" = some (.fact 0) := by
  have hreg : register freshContWorld 0 1 [] c10kw = .ok c10w := rfl
  have H := c10_reserved_kwargs freshContWorld 0 1 [] c10kw c10w hreg (by decide)
  exact ⟨H.1.1,
         H.2.1 "dep" _ (List.mem_cons_self _ _) (by decide) (by decide) (by decide),
         (H.2.2.1 "G" [] rfl rfl (by decide)).1 rfl,
         H.2.2.2.1 "AL" [] rfl rfl (by decide),
         H.2.2.2.2.1 rfl (by decide)⟩

/-- A world with two factories (for `m.C` and `n.D`) grouped under
`"prov"`. -/
def groupWorld : World :=
  { baseWorld with
    facts := [{ classObject := 1, containers := 0, depArgs := [],
                depKwargs := [], cache := none },
              { classObject := 2, containers := 0, depArgs := [],
                depKwargs := [], cache := none }],
    conts := [[("_group", .map [("prov", .lst [0, 1])]), ("_alias", .map []),
               ("_config", .nil),
               ("m", .map [("C", .fact 0)]), ("n", .map [("D", .fact 1)])]] }

theorem c8_witness :
    buildDesc 6 (.group "nope" true [] []) 0 groupWorld = (.ok (.vlist []), groupWorld) ∧
    buildDesc 6 (.group "prov" true [] []) 0 groupWorld
      = (.ok (.vlist [.obj 0, .obj 1]),
         (resolveGroupMembers 5 [0, 1] true [] [] groupWorld).2) :=
  ⟨(c8_group_resolution 5 "nope" true [] [] 0 groupWorld
      [("prov", .lst [0, 1])] rfl).1 rfl,
   ((c8_group_resolution 5 "prov" true [] [] 0 groupWorld
      [("prov", .lst [0, 1])] rfl).2.1 [0, 1] rfl).trans (by rfl)⟩

/-! ## C6 — merging containers (`Container.update`) -/

/-- Proper nested lookup of a dotted path in a registry map: each
intermediate segment must be a nested map. -/
def getPath : List (String × Node) → List String → Option Node
  | _, [] => none
  | m, [p] => Node.mapGet m p
  | m, p :: q :: rest =>
      match Node.mapGet m p with
      | some (.map inner) => getPath inner (q :: rest)
      | _ => none

mutual

/-- Key uniqueness of every map in a registry tree (Python dicts cannot
have duplicate keys; association lists built by `mapSet` from unique-key
lists stay unique). -/
def nodupNodeB : Node → Bool
  | .map es => nodupEntriesB es
  | _ => true

def nodupEntriesB : List (String × Node) → Bool
  | [] => true
  | (k, v) :: es =>
      !((es.map Prod.fst).contains k) && nodupNodeB v && nodupEntriesB es

end

theorem nodupEntriesB_cons {k : String} {v : Node} {es : List (String × Node)}
    (h : nodupEntriesB ((k, v) :: es) = true) :
    (es.map Prod.fst).contains k = false ∧ nodupNodeB v = true ∧
      nodupEntriesB es = true := by
  rw [nodupEntriesB] at h
  simp only [Bool.and_eq_true, Bool.not_eq_true'] at h
  exact ⟨h.1.1, h.1.2, h.2⟩

theorem mapGet_none_of_contains_false {es : List (String × Node)} {k : String}
    (h : (es.map Prod.fst).contains k = false) : Node.mapGet es k = none := by
  induction es with
  | nil => rfl
  | cons kv rest ih =>
      rcases kv with ⟨k0, v0⟩
      simp only [List.map, List.contains_cons, Bool.or_eq_false_iff] at h
      rw [Node.mapGet]
      rw [if_neg ?_]
      · exact ih h.2
      · intro hk
        subst hk
        simp at h

theorem nodupEntriesB_get {es : List (String × Node)} {k : String} {v : Node}
    (hn : nodupEntriesB es = true) (hv : Node.mapGet es k = some v) :
    nodupNodeB v = true := by
  induction es with
  | nil => cases hv
  | cons kv rest ih =>
      rcases kv with ⟨k0, v0⟩
      obtain ⟨h1, h2, h3⟩ := nodupEntriesB_cons hn
      rw [Node.mapGet] at hv
      by_cases hk : k0 = k
      · rw [if_pos hk] at hv
        cases hv
        exact h2
      · rw [if_neg hk] at hv
        exact ih h3 hv

/-- `mergeOne` on a key other than the one it treats leaves the binding
alone. -/
theorem mergeOne_other {d1 : List (String × Node)} {k0 : String} {v : Node}
    {d1' : List (String × Node)} (h : mergeOne d1 k0 v = .ok d1')
    {k : String} (hne : k ≠ k0) : Node.mapGet d1' k = Node.mapGet d1 k := by
  rw [mergeOne] at h
  split at h
  · simp only [Except.ok.injEq] at h
    rw [← h, Node.mapGet_mapSet_other _ _ _ _ hne]
  · cases v with
    | map m2 =>
        dsimp only at h
        split at h
        · exact Except.noConfusion h
        · simp only [Except.ok.injEq] at h
          rw [← h, Node.mapGet_mapSet_other _ _ _ _ hne]
    | fact f => exact Except.noConfusion h
    | lst l => exact Except.noConfusion h
    | nil => exact Except.noConfusion h
  · cases v with
    | nil =>
        rw [mergeFactArm] at h
        simp only [Except.ok.injEq] at h
        rw [← h]
    | map m2 =>
        rw [mergeFactArm] at h
        simp only [Except.ok.injEq] at h
        rw [← h, Node.mapGet_mapSet_other _ _ _ _ hne]
    | fact f =>
        rw [mergeFactArm] at h
        simp only [Except.ok.injEq] at h
        rw [← h, Node.mapGet_mapSet_other _ _ _ _ hne]
    | lst l =>
        rw [mergeFactArm] at h
        simp only [Except.ok.injEq] at h
        rw [← h, Node.mapGet_mapSet_other _ _ _ _ hne]
  · cases v with
    | lst l2 =>
        rw [mergeListArm] at h
        simp only [Except.ok.injEq] at h
        rw [← h, Node.mapGet_mapSet_other _ _ _ _ hne]
    | map m2 => rw [mergeListArm] at h; exact Except.noConfusion h
    | fact f => rw [mergeListArm] at h; exact Except.noConfusion h
    | nil => rw [mergeListArm] at h; exact Except.noConfusion h
  · exact Except.noConfusion h

/-- Merging entries none of which bind `k` leaves the binding at `k`
alone. -/
theorem mergeInto_other {d2 d1 : List (String × Node)}
    {m : List (String × Node)} (h : mergeInto d1 d2 = .ok m)
    {k : String} (hk : Node.mapGet d2 k = none) :
    Node.mapGet m k = Node.mapGet d1 k := by
  induction d2 generalizing d1 with
  | nil =>
      rw [mergeInto] at h
      simp only [Except.ok.injEq] at h
      rw [← h]
  | cons kv rest ih =>
      rcases kv with ⟨k0, v0⟩
      rw [Node.mapGet] at hk
      by_cases hkk : k0 = k
      · rw [if_pos hkk] at hk
        cases hk
      · rw [if_neg hkk] at hk
        rw [mergeInto] at h
        split at h
        · exact absurd h (by simp)
        · rename_i d1x heq
          rw [ih h hk, mergeOne_other heq (fun hh => hkk hh.symm)]

/-- Merging a factory leaf into `d1` at `k` succeeds only by placing that
leaf at `k` (an existing nested map, list or `None` at `k` would raise). -/
theorem mergeOne_fact {d1 : List (String × Node)} {k : String} {f : Nat}
    {d1' : List (String × Node)} (h : mergeOne d1 k (.fact f) = .ok d1') :
    Node.mapGet d1' k = some (.fact f) := by
  rw [mergeOne] at h
  split at h
  · simp only [Except.ok.injEq] at h
    rw [← h, Node.mapGet_mapSet_self]
  · exact Except.noConfusion h
  · rw [mergeFactArm] at h
    simp only [Except.ok.injEq] at h
    rw [← h, Node.mapGet_mapSet_self]
  · rw [mergeListArm] at h
    exact Except.noConfusion h
  · exact Except.noConfusion h

/-- Merging a nested map into `d1` at `k` succeeds only by placing a map
there: the incoming one verbatim (key absent, or factory replaced), or the
recursive merge of the two maps. -/
theorem mergeOne_map {d1 : List (String × Node)} {k : String}
    {m2 : List (String × Node)} {d1' : List (String × Node)}
    (h : mergeOne d1 k (.map m2) = .ok d1') :
    ∃ mm, Node.mapGet d1' k = some (.map mm) ∧
      (mm = m2 ∨ ∃ m1, Node.mapGet d1 k = some (.map m1) ∧
        mergeInto m1 m2 = .ok mm) := by
  rw [mergeOne] at h
  split at h
  · simp only [Except.ok.injEq] at h
    exact ⟨m2, by rw [← h, Node.mapGet_mapSet_self], .inl rfl⟩
  · rename_i m1 hm1
    dsimp only at h
    split at h
    · exact Except.noConfusion h
    · rename_i mm hmm
      simp only [Except.ok.injEq] at h
      exact ⟨mm, by rw [← h, Node.mapGet_mapSet_self], .inr ⟨m1, hm1, hmm⟩⟩
  · rw [mergeFactArm] at h
    simp only [Except.ok.injEq] at h
    exact ⟨m2, by rw [← h, Node.mapGet_mapSet_self], .inl rfl⟩
  · rw [mergeListArm] at h
    exact Except.noConfusion h
  · exact Except.noConfusion h

/-- Through a successful merge, every factory leaf bound in the incoming
map (with unique keys) ends up bound in the result. -/
theorem mergeInto_get_fact {d2 d1 m : List (String × Node)} {k : String}
    {f : Nat} (h : mergeInto d1 d2 = .ok m) (hn : nodupEntriesB d2 = true)
    (hv : Node.mapGet d2 k = some (.fact f)) :
    Node.mapGet m k = some (.fact f) := by
  induction d2 generalizing d1 with
  | nil => cases hv
  | cons kv rest ih =>
      rcases kv with ⟨k0, v0⟩
      obtain ⟨hn1, hn2, hn3⟩ := nodupEntriesB_cons hn
      rw [mergeInto] at h
      split at h
      · exact Except.noConfusion h
      · rename_i d1x heq
        rw [Node.mapGet] at hv
        by_cases hk : k0 = k
        · rw [if_pos hk] at hv
          cases hv
          subst hk
          rw [mergeInto_other h (mapGet_none_of_contains_false hn1)]
          exact mergeOne_fact heq
        · rw [if_neg hk] at hv
          exact ih h hn3 hv

/-- Likewise for a nested map bound in the incoming map. -/
theorem mergeInto_get_map {d2 d1 m : List (String × Node)} {k : String}
    {m2 : List (String × Node)} (h : mergeInto d1 d2 = .ok m)
    (hn : nodupEntriesB d2 = true) (hv : Node.mapGet d2 k = some (.map m2)) :
    ∃ mm, Node.mapGet m k = some (.map mm) ∧
      (mm = m2 ∨ ∃ m1, Node.mapGet d1 k = some (.map m1) ∧
        mergeInto m1 m2 = .ok mm) := by
  induction d2 generalizing d1 with
  | nil => cases hv
  | cons kv rest ih =>
      rcases kv with ⟨k0, v0⟩
      obtain ⟨hn1, hn2, hn3⟩ := nodupEntriesB_cons hn
      rw [mergeInto] at h
      split at h
      · exact Except.noConfusion h
      · rename_i d1x heq
        rw [Node.mapGet] at hv
        by_cases hk : k0 = k
        · rw [if_pos hk] at hv
          cases hv
          subst hk
          obtain ⟨mm, hmm, hcase⟩ := mergeOne_map heq
          refine ⟨mm, ?_, hcase⟩
          rw [mergeInto_other h (mapGet_none_of_contains_false hn1)]
          exact hmm
        · rw [if_neg hk] at hv
          obtain ⟨mm, hmm, hcase⟩ := ih h hn3 hv
          refine ⟨mm, hmm, ?_⟩
          rcases hcase with hc | ⟨m1, hm1, hmrg⟩
          · exact .inl hc
          · exact .inr ⟨m1, by rw [← mergeOne_other heq (fun hh => hk hh.symm)]
                               exact hm1, hmrg⟩

/-- **Merge preserves resolvability.**  Every dotted path leading to a
factory leaf in the incoming registry map (unique keys throughout) leads
to one in the merged map. -/
theorem mergeResolves {ps : List String} {d1 d2 m : List (String × Node)}
    {f : Nat} (h : mergeInto d1 d2 = .ok m) (hn : nodupEntriesB d2 = true)
    (hv : getPath d2 ps = some (.fact f)) :
    getPath m ps = some (.fact f) := by
  induction ps generalizing d1 d2 m with
  | nil => cases hv
  | cons p rest ih =>
      cases rest with
      | nil =>
          rw [getPath] at hv ⊢
          exact mergeInto_get_fact h hn hv
      | cons q rest2 =>
          rw [getPath] at hv
          split at hv
          · rename_i inner hinner
            obtain ⟨mm, hmm, hcase⟩ := mergeInto_get_map h hn hinner
            rw [getPath, hmm]
            rcases hcase with hc | ⟨m1, _, hmrg⟩
            · rw [hc]
              exact hv
            · exact ih hmrg (nodupEntriesB_get hn hinner) hv
          · exact Option.noConfusion hv

/-- The descriptor walk, started on a nested map, follows a `getPath`
route exactly (every intermediate node is a map, so the else-branch — the
fallback to the top-level map — never fires). -/
theorem foldl_walk_of_getPath (conts : List (String × Node)) :
    ∀ (ps : List String) (inner : List (String × Node)) (nd : Node),
    getPath inner ps = some nd →
    List.foldl (fun obj seg =>
      match obj with
      | Node.map es => (Node.mapGet es seg).getD .nil
      | _ => (Node.mapGet conts seg).getD .nil) (Node.map inner) ps = nd := by
  intro ps
  induction ps with
  | nil => intro inner nd hv; cases hv
  | cons p rest ih =>
      intro inner nd hv
      cases rest with
      | nil =>
          rw [getPath] at hv
          simp only [List.foldl]
          rw [hv]
          rfl
      | cons q rest2 =>
          rw [getPath] at hv
          split at hv
          · rename_i inner2 hinner
            rw [List.foldl_cons]
            show List.foldl _ ((Node.mapGet inner p).getD .nil) (q :: rest2) = nd
            rw [hinner]
            exact ih inner2 nd hv
          · exact Option.noConfusion hv

/-- A path that resolves by proper nested lookup also resolves by the
descriptors' quirky walk, to the same node. -/
theorem walkPath_of_getPath {m : List (String × Node)} {ps : List String}
    {nd : Node} (h : getPath m ps = some nd) : walkPath m ps = nd := by
  cases ps with
  | nil => cases h
  | cons p rest =>
      cases rest with
      | nil =>
          rw [getPath] at h
          unfold walkPath
          simp only [List.foldl]
          rw [h]
          rfl
      | cons q rest2 =>
          rw [getPath] at h
          split at h
          · rename_i inner hinner
            unfold walkPath
            rw [List.foldl_cons]
            show List.foldl _ ((Node.mapGet m p).getD .nil) (q :: rest2) = nd
            rw [hinner]
            exact foldl_walk_of_getPath m (q :: rest2) inner nd h
          · exact Option.noConfusion h

/-- `setFactContainers` seen through `getFact`. -/
theorem getFact_setFactContainers (w : World) (fid g cid : Nat) :
    (w.setFactContainers fid cid).getFact g =
      if fid = g ∧ fid < w.facts.length
      then { w.getFact fid with containers := cid }
      else w.getFact g := by
  unfold World.setFactContainers World.getFact
  simp only [List.getD_eq_getElem?_getD, List.getElem?_set]
  by_cases h1 : fid = g
  · subst h1
    by_cases h2 : fid < w.facts.length
    · simp [h2]
    · rw [if_pos rfl, if_neg h2, if_neg (fun hh => h2 hh.2),
          List.getElem?_eq_none (Nat.le_of_not_lt h2)]
  · rw [if_neg h1, if_neg (fun hh => h1 hh.1)]

/-- The rebind loop never touches the container maps. -/
theorem rebind_conts {objs : List Node} {cid : Nat} {w' : World} :
    ∀ w : World, rebindFactories w cid objs = .ok w' → w'.conts = w.conts := by
  induction objs with
  | nil =>
      intro w h
      rw [rebindFactories] at h
      simp only [Except.ok.injEq] at h
      rw [← h]
  | cons nd rest ih =>
      intro w h
      cases nd with
      | fact f =>
          rw [rebindFactories] at h
          exact ih (w.setFactContainers f cid) h
      | map es => rw [rebindFactories] at h; exact Except.noConfusion h
      | lst l => rw [rebindFactories] at h; exact Except.noConfusion h
      | nil => rw [rebindFactories] at h; exact Except.noConfusion h

/-- Nor the number of factories. -/
theorem rebind_facts_len {objs : List Node} {cid : Nat} {w' : World} :
    ∀ w : World, rebindFactories w cid objs = .ok w' →
      w'.facts.length = w.facts.length := by
  induction objs with
  | nil =>
      intro w h
      rw [rebindFactories] at h
      simp only [Except.ok.injEq] at h
      rw [← h]
  | cons nd rest ih =>
      intro w h
      cases nd with
      | fact f =>
          rw [rebindFactories] at h
          rw [ih (w.setFactContainers f cid) h]
          show (w.facts.set f _).length = w.facts.length
          rw [List.length_set]
      | map es => rw [rebindFactories] at h; exact Except.noConfusion h
      | lst l => rw [rebindFactories] at h; exact Except.noConfusion h
      | nil => rw [rebindFactories] at h; exact Except.noConfusion h

/-- A back-reference already pointing at `cid` survives the rebind loop. -/
theorem rebind_keeps {objs : List Node} {cid : Nat} {w' : World} {g : Nat} :
    ∀ w : World, rebindFactories w cid objs = .ok w' →
      (w.getFact g).containers = cid → (w'.getFact g).containers = cid := by
  induction objs with
  | nil =>
      intro w h hg
      rw [rebindFactories] at h
      simp only [Except.ok.injEq] at h
      rw [← h]
      exact hg
  | cons nd rest ih =>
      intro w h hg
      cases nd with
      | fact f =>
          rw [rebindFactories] at h
          refine ih (w.setFactContainers f cid) h ?_
          rw [getFact_setFactContainers]
          split
          · rfl
          · exact hg
      | map es => rw [rebindFactories] at h; exact Except.noConfusion h
      | lst l => rw [rebindFactories] at h; exact Except.noConfusion h
      | nil => rw [rebindFactories] at h; exact Except.noConfusion h

/-- Every factory the rebind loop visits ends up pointing at `cid`. -/
theorem rebind_sets {objs : List Node} {cid : Nat} {w' : World} {f : Nat}
    (hmem : Node.fact f ∈ objs) :
    ∀ w : World, rebindFactories w cid objs = .ok w' →
      f < w.facts.length → (w'.getFact f).containers = cid := by
  induction objs with
  | nil => cases hmem
  | cons nd rest ih =>
      intro w h hlt
      cases nd with
      | fact f0 =>
          rw [rebindFactories] at h
          rcases List.mem_cons.mp hmem with heq | hmem2
          · injection heq with hf
            subst hf
            refine rebind_keeps (w.setFactContainers f cid) h ?_
            rw [getFact_setFactContainers, if_pos ⟨rfl, hlt⟩]
          · refine ih hmem2 (w.setFactContainers f0 cid) h ?_
            show f < (w.facts.set f0 _).length
            rw [List.length_set]
            exact hlt
      | map es => rw [rebindFactories] at h; exact Except.noConfusion h
      | lst l => rw [rebindFactories] at h; exact Except.noConfusion h
      | nil => rw [rebindFactories] at h; exact Except.noConfusion h

/-- Successful `Container.update`, decomposed: a successful merge followed
by a successful rebind of everything collected from the merged map. -/
theorem containerUpdate_ok {w : World} {aCid bCid : Nat} {w' : World}
    (h : containerUpdate w aCid bCid = .ok w') :
    ∃ merged, mergeInto (w.getCont aCid) (w.getCont bCid) = .ok merged ∧
      rebindFactories (w.setCont aCid merged) aCid
        (listObjectFactories merged) = .ok w' := by
  rw [containerUpdate] at h
  split at h
  · exact Except.noConfusion h
  · rename_i merged hm
    exact ⟨merged, hm, h⟩

/-- Two fresh containers over `baseWorld`: A = container 0, B = container 1. -/
def c6wA : World := (newContainer baseWorld).2

def c6wAB : World := (newContainer c6wA).2

/-- B (container 1) with `m.C` registered; A (container 0) stays fresh. -/
def c6wB : World := (register c6wAB 1 1 [] []).toOption.getD c6wAB

/-- **C6 (counterexample).**  `m.C` is registered in B and resolvable
there, yet `A.update(B)` raises: the merge reaches A's `_config` slot,
which a fresh container holds as `None`, and `None.update(...)` is an
`AttributeError` — so nothing registered only in B becomes resolvable
from A, contradicting the claim for this pair of containers. -/
theorem c6_counterexample :
    register c6wAB 1 1 [] [] = .ok c6wB ∧
    getPath (c6wB.getCont 1) ["m", "C"] = some (.fact 0) ∧
    containerUpdate c6wB 0 1
      = .error "AttributeError: NoneType object has no attribute update" :=
  ⟨rfl, rfl, rfl⟩

/-- **C6 (amended).**  When `A.update(B)` *does* succeed (which requires
in particular that A's `_config` slot is not the fresh `None` — the merge
raises otherwise), every class path bound to a factory in B's registry
map (unique keys throughout, as Python dicts guarantee) is resolvable
from A's merged map — by nested lookup and by the descriptors' walk — and
every factory collected from the merged map has its back-reference rebound
to A. -/
theorem c6_amended (w : World) (aCid bCid : Nat) (w' : World)
    (hA : aCid < w.conts.length)
    (hnd : nodupEntriesB (w.getCont bCid) = true)
    (hfb : ∀ f, Node.fact f ∈ listObjectFactories (w'.getCont aCid) →
        f < w.facts.length)
    (hu : containerUpdate w aCid bCid = .ok w') :
    (∀ ps f, getPath (w.getCont bCid) ps = some (.fact f) →
        getPath (w'.getCont aCid) ps = some (.fact f) ∧
        walkPath (w'.getCont aCid) ps = .fact f) ∧
    (∀ f, Node.fact f ∈ listObjectFactories (w'.getCont aCid) →
        (w'.getFact f).containers = aCid) := by
  obtain ⟨merged, hm, hr⟩ := containerUpdate_ok hu
  have hgc : w'.getCont aCid = merged := by
    unfold World.getCont
    rw [rebind_conts _ hr]
    show ((w.conts.set aCid merged).getD aCid []) = merged
    rw [List.getD_eq_getElem?_getD, List.getElem?_set]
    simp [hA]
  constructor
  · intro ps f hp
    have h1 : getPath merged ps = some (.fact f) := mergeResolves hm hnd hp
    rw [hgc]
    exact ⟨h1, walkPath_of_getPath h1⟩
  · intro f hmem
    have hmem2 : Node.fact f ∈ listObjectFactories merged := by
      rw [← hgc]
      exact hmem
    refine rebind_sets hmem2 (w.setCont aCid merged) hr ?_
    show f < w.facts.length
    exact hfb f hmem

/-- The C6 witness scenario: A (container 0) designates `m.Cfg` as config,
B (container 1) registers `n.D`, then `A.update(B)`. -/
def c6v2 : World :=
  (register c6wAB 0 0 [] [("_config", .flag true)]).toOption.getD c6wAB

def c6v3 : World := (register c6v2 1 2 [] []).toOption.getD c6v2

def c6v4 : World := (containerUpdate c6v3 0 1).toOption.getD c6v3

theorem c6_witness :
    (getPath (c6v4.getCont 0) ["n", "D"] = some (.fact 1) ∧
     walkPath (c6v4.getCont 0) ["n", "D"] = .fact 1) ∧
    (c6v4.getFact 1).containers = 0 := by
  have hfb : ∀ f, Node.fact f ∈ listObjectFactories (c6v4.getCont 0) →
      f < c6v3.facts.length := by
    intro f hf
    rw [show listObjectFactories (c6v4.getCont 0)
      = [.fact 0, .fact 0, .fact 1] from rfl] at hf
    have hor : f = 0 ∨ f = 0 ∨ f = 1 := by simpa using hf
    rcases hor with h | h | h <;> subst h <;> decide
  have H := c6_amended c6v3 0 1 c6v4 (by decide) (by decide) hfb rfl
  refine ⟨H.1 ["n", "D"] 1 rfl, H.2 1 ?_⟩
  rw [show listObjectFactories (c6v4.getCont 0)
    = [.fact 0, .fact 0, .fact 1] from rfl]
  simp
